import Mathlib

/-!
Verification of the controller discovery-and-supervision subsystem of the
thingkaton repository (src/thingkaton/app.py) against its natural-language
specification.

The Python source is shallowly embedded: dictionaries become association
lists over String keys, the asyncio task of a controller becomes an explicit
lifecycle state, and each operation of the ControllerManager becomes a pure
Lean function from the manager state (plus the externally supplied inputs
such as the discovered controller set or the event stream) to the new state
together with the list of observable actions it performs.
-/

deriving instance DecidableEq for Except

namespace Thingkaton

/-! ## Python string primitives

The Python string methods the source uses (str.lower, str.replace and
str.split, always with single-character patterns, on ASCII slugs) are
embedded as list-of-characters recursions so that they evaluate on concrete
inputs. -/

/-- Python str.lower on the ASCII strings the source handles. -/
def strLower (s : String) : String := ⟨s.data.map Char.toLower⟩

/-- Python str.replace with a single-character pattern and replacement. -/
def replaceChar (s : String) (a b : Char) : String :=
  ⟨s.data.map fun c => if c = a then b else c⟩

def splitCharAux (sep : Char) : List Char → List Char → List (List Char)
  | [], acc => [acc.reverse]
  | c :: rest, acc =>
    if c = sep then acc.reverse :: splitCharAux sep rest []
    else splitCharAux sep rest (c :: acc)

/-- Python str.split with a single-character separator; never returns an
empty list. -/
def splitChar (s : String) (sep : Char) : List String :=
  (splitCharAux sep s.data []).map fun l => ⟨l⟩

/-! ## Association-list dictionaries

Python dict with String keys, modelled as a list of key-value pairs in
insertion order. Keys are unique in every state reachable by the code;
theorems that need uniqueness take it as a Nodup hypothesis. -/

def lookupKey {α : Type} : List (String × α) → String → Option α
  | [], _ => none
  | p :: rest, x => if p.1 = x then some p.2 else lookupKey rest x

def eraseKey {α : Type} : List (String × α) → String → List (String × α)
  | [], _ => []
  | p :: rest, x => if p.1 = x then eraseKey rest x else p :: eraseKey rest x

def keysOf {α : Type} (l : List (String × α)) : List String :=
  l.map Prod.fst

@[simp] theorem lookupKey_nil {α : Type} (x : String) :
    lookupKey ([] : List (String × α)) x = none := rfl

@[simp] theorem lookupKey_cons {α : Type} (p : String × α) (rest : List (String × α))
    (x : String) :
    lookupKey (p :: rest) x = if p.1 = x then some p.2 else lookupKey rest x := rfl

@[simp] theorem eraseKey_nil {α : Type} (x : String) :
    eraseKey ([] : List (String × α)) x = [] := rfl

@[simp] theorem eraseKey_cons {α : Type} (p : String × α) (rest : List (String × α))
    (x : String) :
    eraseKey (p :: rest) x =
      if p.1 = x then eraseKey rest x else p :: eraseKey rest x := rfl

theorem lookupKey_append {α : Type} (l₁ l₂ : List (String × α)) (x : String) :
    lookupKey (l₁ ++ l₂) x =
      match lookupKey l₁ x with
      | some v => some v
      | none => lookupKey l₂ x := by
  induction l₁ with
  | nil => simp
  | cons p rest ih =>
    by_cases h : p.1 = x <;> simp [h, ih]

@[simp] theorem keysOf_nil {α : Type} : keysOf ([] : List (String × α)) = [] := rfl

@[simp] theorem keysOf_cons {α : Type} (p : String × α) (rest : List (String × α)) :
    keysOf (p :: rest) = p.1 :: keysOf rest := rfl

theorem lookupKey_eraseKey {α : Type} (l : List (String × α)) (i x : String) :
    lookupKey (eraseKey l i) x = if i = x then none else lookupKey l x := by
  induction l with
  | nil => simp
  | cons p rest ih =>
    by_cases hp : p.1 = i
    · rw [eraseKey_cons, if_pos hp, ih]
      by_cases hx : i = x
      · simp [hx]
      · have hpx : ¬ p.1 = x := fun h => hx (hp.symm.trans h)
        simp [hx, hpx]
    · rw [eraseKey_cons, if_neg hp, lookupKey_cons]
      by_cases hx : p.1 = x
      · have hix : ¬ i = x := fun h => hp (hx.trans h.symm)
        simp [hx, hix]
      · simp [hx, ih]

theorem lookupKey_eq_none_iff {α : Type} (l : List (String × α)) (x : String) :
    lookupKey l x = none ↔ x ∉ keysOf l := by
  induction l with
  | nil => simp
  | cons p rest ih =>
    by_cases h : p.1 = x
    · simp [h]
    · have hx : ¬ x = p.1 := fun hh => h hh.symm
      simp [h, hx, ih]

theorem eraseKey_sublist {α : Type} (l : List (String × α)) (i : String) :
    (eraseKey l i).Sublist l := by
  induction l with
  | nil => simp
  | cons p rest ih =>
    by_cases h : p.1 = i
    · simpa [eraseKey, h] using ih.cons p
    · simpa [eraseKey, h] using ih.cons₂ p

theorem keysOf_nodup_eraseKey {α : Type} {l : List (String × α)} (i : String)
    (h : (keysOf l).Nodup) : (keysOf (eraseKey l i)).Nodup :=
  List.Nodup.sublist ((eraseKey_sublist l i).map Prod.fst) h

/-! ## Error records and the safety-state classifier

The Error and DeviceErrors record shapes come from
thingkaton/wakurobotics/care/devices/v1/error_schema.py, a generated
data-shape module whose file is not part of the sources at hand; the fields
are reconstructed from their only constructor calls in app.py
(report_safety_state) and from the specification. The timestamp produced by
get_timestamp is wall-clock time; it is threaded through as an explicit
parameter. -/

structure Error where
  title : String
  code : String
  description : String
  component : String
  severity : Nat
  deriving Repr, DecidableEq

structure DeviceErrors where
  timestamp : Nat
  activeErrors : List Error
  deriving Repr, DecidableEq

/-- Modelled from the spec: the highest level of the severity scale of the
error records (error_schema.py is not among the sources; the specification
says severity is an integer, higher = more severe, and that an emergency
report carries the highest level, which the caller in app.py writes as 4). -/
def highest_severity_level : Nat := 4

/-- Embedding of report_safety_state (app.py lines 28-59): the publish call
it performs, if any, for a raw safety-state value. -/
def report_safety_state (safety_state : String) (ts : Nat) : Option DeviceErrors :=
  if safety_state ≠ "SAFETY_STATE_ROBOT_EMERGENCY_STOP" ∧ safety_state ≠ "SAFETY_STATE_NORMAL" then
    none
  else if safety_state = "SAFETY_STATE_ROBOT_EMERGENCY_STOP" then
    some { timestamp := ts,
           activeErrors := [{ title := "Robot Controller Safety State",
                              code := safety_state,
                              description := "Safety state of the robot controller has changed.",
                              component := "robot_controller",
                              severity := 4 }] }
  else
    some { timestamp := ts, activeErrors := [] }

/-! ## Device descriptor mapping (Registrar)

Embedding of map_robot_controller_to_waku_device (app.py lines 63-106) and
of the DeviceFactsheet shape
(thingkaton/wakurobotics/care/devices/v1/factsheet_schema.py). The pydantic
model declares serial, name, manufacturer and model as required str fields;
constructing it with a missing required field raises a validation error,
which the embedding expresses by returning an Except. -/

structure DeviceFactsheet where
  serial : String
  name : String
  manufacturer : String
  model : String
  version : Option String
  deployment : Option String
  deriving Repr, DecidableEq

/-- Pydantic construction of DeviceFactsheet: manufacturer and model are
required str fields, so passing None for either raises a ValidationError. -/
def DeviceFactsheet.validate (serial name : String) (manufacturer model : Option String)
    (version deployment : Option String) : Except String DeviceFactsheet :=
  match manufacturer, model with
  | some m, some k => Except.ok ⟨serial, name, m, k, version, deployment⟩
  | _, _ => Except.error "ValidationError: manufacturer and model are required string fields"

/-- Python rendering of an optional string inside an f-string. -/
def optRepr : Option String → String
  | none => "None"
  | some s => s

/-- The actual_instance variants of the controller configuration that the
isinstance chain in map_robot_controller_to_waku_device distinguishes; the
unknown constructor stands for any instance type matching none of the
checks. -/
inductive ControllerConfiguration where
  | AbbController (kind : String)
  | FanucController (kind : String)
  | KukaController (kind : String)
  | UniversalrobotsController (kind : String)
  | YaskawaController (kind : String)
  | VirtualController (manufacturer : String) (type : String)
  | UnknownController
  deriving Repr, DecidableEq

structure RobotController where
  name : String
  configuration : ControllerConfiguration
  deriving Repr, DecidableEq

/-- Embedding of map_robot_controller_to_waku_device (app.py 63-106). -/
def map_robot_controller_to_waku_device (controller : RobotController) :
    Except String DeviceFactsheet :=
  let pair : Option String × Option String :=
    match controller.configuration with
    | .AbbController kind => (some "abb", some (strLower kind))
    | .FanucController kind => (some "fanuc", some (strLower kind))
    | .KukaController kind => (some "kuka", some (strLower kind))
    | .UniversalrobotsController kind => (some "universal-robots", some (strLower kind))
    | .YaskawaController kind => (some "yaskawa", some (strLower kind))
    | .VirtualController manu ty =>
      let manufacturer := if strLower manu = "universalrobots" then "universal-robots" else strLower manu
      let result := (splitChar ty '-').getLastD ""
      (some manufacturer, some (strLower (replaceChar (replaceChar result ' ' '-') '_' '-')))
    | .UnknownController => (none, none)
  DeviceFactsheet.validate controller.name
    ("Wandelbots Nova Cloud - " ++ controller.name ++ " - " ++ optRepr pair.1 ++ " " ++ optRepr pair.2)
    pair.1 pair.2 (some "1.0.0") (some "Default")

/-- Follows the spec's words (refinement side for the Registrar claim): the
fixed lower-cased manufacturer slug and the lower-cased kind as model, as a
lookup table keyed by the controller kind. -/
def spec_known_descriptor_slug : ControllerConfiguration → Option (String × String)
  | .AbbController kind => some ("abb", strLower kind)
  | .FanucController kind => some ("fanuc", strLower kind)
  | .KukaController kind => some ("kuka", strLower kind)
  | .UniversalrobotsController kind => some ("universal-robots", strLower kind)
  | .YaskawaController kind => some ("yaskawa", strLower kind)
  | _ => none

/-- Follows the spec's words (refinement side for the Registrar claim): for
a virtual controller the model slug is the portion of the type string after
the last separator, with the remaining separators (spaces and underscores)
normalized to the single canonical separator character and lower-cased. -/
def spec_virtual_model_slug (ty : String) : String :=
  strLower (replaceChar (replaceChar ((splitChar ty '-').getLastD "") ' ' '-') '_' '-')

/-! ## The per-controller streaming task

Embedding of stream_controller_state (app.py 146-184) together with the
register_waku_device helper (app.py 618-624). The task is modelled as the
finite trace of primitive actions it performs given: the controller
configuration the external source returns, the success of the two
registration publishes, and the finite prefix of the state-event stream it
observes before the stream ends. -/

inductive TaskAction where
  | fetchConfig (id : String)
  | registerDevice (serial : String)
  | connectDevice (serial : String)
  | consumeEvent (value : String)
  | publishErrors (report : DeviceErrors)
  deriving Repr, DecidableEq

inductive TaskResult where
  | completed
  | failed (msg : String)
  deriving Repr, DecidableEq

/-- Embedding of register_waku_device (app.py 618-624): publish the
factsheet, then mark the device connected. -/
def register_waku_device_trace (fs : DeviceFactsheet) : List TaskAction :=
  [TaskAction.registerDevice fs.serial, TaskAction.connectDevice fs.serial]

/-- Embedding of the event loop of stream_controller_state (app.py 164-175):
consume each event; when the observed value differs from the previous one
(the first observation never equals the absent previous value), record it
and invoke report_safety_state, which publishes at most one DeviceErrors
record. -/
def stream_events (ts : Nat) : Option String → List String → List TaskAction
  | _, [] => []
  | prev, v :: rest =>
    TaskAction.consumeEvent v ::
      ((if prev = some v then [] else
          match report_safety_state v ts with
          | some report => [TaskAction.publishErrors report]
          | none => []) ++ stream_events ts (some v) rest)

/-- The reports published over a run of the event loop, in order. -/
def published_reports (ts : Nat) (prev : Option String) (events : List String) :
    List DeviceErrors :=
  (stream_events ts prev events).filterMap fun a =>
    match a with
    | TaskAction.publishErrors report => some report
    | _ => none

/-- Embedding of stream_controller_state (app.py 146-184): fetch the
controller configuration, map it to a factsheet (a mapping failure raises
and fails the task before anything is registered), perform the two
registration steps (a failure of either raises and fails the task before
any event is consumed), then run the event loop. The modelled stream is a
finite list consumed to its end, after which the task completes. -/
def stream_controller_state_trace (controller : RobotController)
    (registerOk connectOk : Bool) (ts : Nat) (prev : Option String)
    (events : List String) : List TaskAction × TaskResult :=
  match map_robot_controller_to_waku_device controller with
  | Except.error e => ([TaskAction.fetchConfig controller.name], TaskResult.failed e)
  | Except.ok fs =>
    if registerOk = false then
      ([TaskAction.fetchConfig controller.name, TaskAction.registerDevice fs.serial],
       TaskResult.failed "publish of the device factsheet failed")
    else if connectOk = false then
      ([TaskAction.fetchConfig controller.name, TaskAction.registerDevice fs.serial,
        TaskAction.connectDevice fs.serial],
       TaskResult.failed "publish of the device connection failed")
    else
      (TaskAction.fetchConfig controller.name :: register_waku_device_trace fs
         ++ stream_events ts prev events,
       TaskResult.completed)

/-! ## The ControllerManager state

active_controllers maps a controller id to its asyncio task, modelled by
its lifecycle state; controller_states maps a controller id to the last
recorded safety state. A task freshly created by asyncio.create_task has
not run yet (pending); the done and cancelled observations mirror
asyncio.Task.done and asyncio.Task.cancelled. -/

inductive TaskState where
  | pending
  | running
  | completed
  | failed
  | cancelled
  deriving Repr, DecidableEq

/-- asyncio.Task.done: the task has finished (also when cancelled). -/
def TaskState.done : TaskState → Bool
  | .pending => false
  | .running => false
  | _ => true

/-- asyncio.Task.cancelled: the task finished by cancellation. -/
def TaskState.isCancelled : TaskState → Bool
  | .cancelled => true
  | _ => false

structure MState where
  active_controllers : List (String × TaskState)
  controller_states : List (String × String)
  deriving Repr, DecidableEq

/-- Observable manager actions: an actual launch or teardown of a
controller streaming task. -/
inductive ManageEvent where
  | started (id : String)
  | stopped (id : String)
  deriving Repr, DecidableEq

/-- The controller id an event concerns. -/
def ManageEvent.cid : ManageEvent → String
  | .started i => i
  | .stopped i => i

/-- Embedding of ControllerManager.start_controller_streaming (app.py
186-194): a no-op when a task already exists, otherwise a fresh pending
task is created and recorded. -/
def start_controller_streaming (s : MState) (id : String) : MState × List ManageEvent :=
  match lookupKey s.active_controllers id with
  | some _ => (s, [])
  | none =>
    ({ s with active_controllers := s.active_controllers ++ [(id, TaskState.pending)] },
     [ManageEvent.started id])

/-- Embedding of ControllerManager.stop_controller_streaming (app.py
196-214) at the state level: a no-op when no task exists; otherwise the
record is popped first, and then, unless the task had already finished
with an exception, the tracker entry is deleted. For a task that finished
with an exception (lifecycle state failed), awaiting it at app.py 206
re-raises that exception, which the except clause at 207 (CancelledError
only) does not catch: the tracker deletion at 211-212 is never reached and
the exception propagates to the caller (see stop_raises). -/
def stop_controller_streaming (s : MState) (id : String) : MState × List ManageEvent :=
  match lookupKey s.active_controllers id with
  | none => (s, [])
  | some task =>
    if task = TaskState.failed then
      ({ s with active_controllers := eraseKey s.active_controllers id },
       [ManageEvent.stopped id])
    else
      ({ active_controllers := eraseKey s.active_controllers id,
         controller_states := eraseKey s.controller_states id },
       [ManageEvent.stopped id])

/-- Whether stop_controller_streaming raises: awaiting a task that is done
with a stored exception re-raises it (app.py 206); a cancelled task is
never awaited, a live task's cancellation is caught at 207-208, and a
cleanly completed task's await just returns its value. -/
def stop_raises (s : MState) (id : String) : Bool :=
  match lookupKey s.active_controllers id with
  | some TaskState.failed => true
  | _ => false

/-- The micro-step actions stop_controller_streaming performs, in program
order (app.py 196-214): pop the record from active_controllers, then, if
the task has not already been cancelled, signal cancellation and await the
task, then delete the tracker entry if present. -/
inductive StopAction where
  | popRecord (id : String)
  | cancelTask (id : String)
  | awaitFinish (id : String)
  | removeTracker (id : String)
  deriving Repr, DecidableEq

/-- Embedding of the internal ordering of stop_controller_streaming (app.py
196-214): the exact sequence of micro-steps it runs through. For a failed
task, the await at index 2 re-raises the task's stored exception, so the
sequence ends there and the tracker-removal step never executes. -/
def stop_controller_streaming_steps (s : MState) (id : String) : List StopAction :=
  match lookupKey s.active_controllers id with
  | none => []
  | some task =>
    StopAction.popRecord id ::
      ((if task.isCancelled then [] else [StopAction.cancelTask id, StopAction.awaitFinish id])
        ++ (if task = TaskState.failed then []
            else if (lookupKey s.controller_states id).isSome then [StopAction.removeTracker id]
            else []))

/-- Sequential composition of start_controller_streaming over a list of
ids, as the new-controllers loop of discover_and_manage_controllers does. -/
def startAll : MState → List String → MState × List ManageEvent
  | s, [] => (s, [])
  | s, id :: rest =>
    let r := start_controller_streaming s id
    let rr := startAll r.1 rest
    (rr.1, r.2 ++ rr.2)

/-- Result of a loop of stop/start operations that may be cut short by an
exception: the state reached (mutations before the raise are kept), the
events so far, and whether an exception escaped. -/
structure CycleResult where
  st : MState
  events : List ManageEvent
  raised : Bool
  deriving Repr, DecidableEq

/-- Sequential composition of stop_controller_streaming over a list of ids,
as the removed-controllers loop of discover_and_manage_controllers does
(app.py 233-235); a stop that raises (failed task) aborts the remainder of
the loop, keeping the mutations made so far. -/
def stopAll : MState → List String → CycleResult
  | s, [] => ⟨s, [], false⟩
  | s, id :: rest =>
    let r := stop_controller_streaming s id
    if stop_raises s id then ⟨r.1, r.2, true⟩
    else
      let rr := stopAll r.1 rest
      ⟨rr.st, r.2 ++ rr.events, rr.raised⟩

/-- The completed-tasks loop of discover_and_manage_controllers (app.py
243-247): stop each listed id, then start it again when it is still among
the discovered ids; a stop that raises (failed task) skips the restart and
aborts the remainder of the loop. -/
def restartAll (current : List String) : MState → List String → CycleResult
  | s, [] => ⟨s, [], false⟩
  | s, id :: rest =>
    let r1 := stop_controller_streaming s id
    if stop_raises s id then ⟨r1.1, r1.2, true⟩
    else
      let r2 := if current.contains id then start_controller_streaming r1.1 id else (r1.1, [])
      let rr := restartAll current r2.1 rest
      ⟨rr.st, r1.2 ++ r2.2 ++ rr.events, rr.raised⟩

/-- The new-controllers diff of a discovery cycle (app.py 226): discovered
ids that have no active task. -/
def discoverNewIds (s : MState) (current : List String) : List String :=
  current.filter fun id => lookupKey s.active_controllers id = none

/-- The removed-controllers diff of a discovery cycle (app.py 232): active
ids that are no longer discovered. -/
def discoverRemovedIds (s : MState) (current : List String) : List String :=
  (keysOf s.active_controllers).filter fun id => ¬ current.contains id

/-- The completed-tasks scan of a discovery cycle (app.py 238-241): active
ids whose task is done. -/
def discoverDoneIds (s : MState) : List String :=
  keysOf (s.active_controllers.filter fun p => p.2.done)

/-- Embedding of ControllerManager.discover_and_manage_controllers (app.py
216-251) for one cycle run without interleaving, given the list of
controller ids the external source returned (Python collects them into a
set, hence the dedup). An exception escaping a stop (a failed task's
await, app.py 206) is caught by the outer except at 249: the cycle aborts
there, keeping the mutations made so far and skipping the rest of its
work. -/
def discover_and_manage_controllers (s : MState) (discovered : List String) :
    CycleResult :=
  let current := discovered.dedup
  let r1 := startAll s (discoverNewIds s current)
  let r2 := stopAll r1.1 (discoverRemovedIds r1.1 current)
  if r2.raised then ⟨r2.st, r1.2 ++ r2.events, true⟩
  else
    let r3 := restartAll current r2.st (discoverDoneIds r2.st)
    ⟨r3.st, r1.2 ++ (r2.events ++ r3.events), r3.raised⟩

/-! ## Management API endpoints and the status projection -/

structure ControllerResponse where
  success : Bool
  message : String
  controller_id : Option String
  deriving Repr, DecidableEq

/-- Embedding of the POST controllers start endpoint (app.py 430-456),
given that the manager is initialized: an already-streaming id yields a
failure response and no state change, otherwise the manager start runs and
a success response is returned. -/
def api_start_controller_streaming (s : MState) (id : String) :
    MState × ControllerResponse :=
  match lookupKey s.active_controllers id with
  | some _ =>
    (s, ⟨false, "Controller " ++ id ++ " is already streaming", some id⟩)
  | none =>
    ((start_controller_streaming s id).1,
     ⟨true, "Started streaming for controller " ++ id, some id⟩)

/-- The per-task status string of the status endpoints (app.py 405-414):
cancelled if the task was cancelled, else failed or completed if it is
done, else running; no task at all is not_streaming. -/
def task_status : Option TaskState → String
  | none => "not_streaming"
  | some task =>
    if task.isCancelled then "cancelled"
    else if task.done then
      (if task = TaskState.failed then "failed" else "completed")
    else "running"

structure SystemStatus where
  is_initialized : Bool
  total_controllers : Nat
  active_streams : Nat
  discovered_controllers : List String
  active_controllers : List String
  system_health : String
  deriving Repr, DecidableEq

/-- The runtime dependencies of the global controller manager: whether the
nova connection, the waku client and the cell handle are initialized, plus
the bookkeeping state. -/
structure ManagerRuntime where
  nova : Bool
  waku_client : Bool
  cell : Bool
  st : MState
  deriving Repr, DecidableEq

/-- Embedding of the GET system status endpoint (app.py 345-389). The
manager may be absent (uninitialized subsystem); fetching the controllers
from the cell may fail, which the except branch turns into the
uninitialized payload; otherwise the snapshot is a pure projection of the
manager state. -/
def get_system_status (manager : Option ManagerRuntime)
    (fetch : Except String (List String)) : SystemStatus :=
  match manager with
  | none => ⟨false, 0, 0, [], [], "unhealthy"⟩
  | some m =>
    match (if m.cell then fetch else Except.ok []) with
    | Except.error _ => ⟨false, 0, 0, [], [], "unhealthy"⟩
    | Except.ok discovered_controller_ids =>
      let active_controller_ids := keysOf m.st.active_controllers
      let health :=
        if !m.nova || !m.waku_client then "unhealthy"
        else if active_controller_ids.length < discovered_controller_ids.length then "degraded"
        else "healthy"
      ⟨m.nova && m.waku_client, discovered_controller_ids.length,
       active_controller_ids.length, discovered_controller_ids,
       active_controller_ids, health⟩

/-! ## Properties of the start operation -/

theorem start_states (s : MState) (id : String) :
    (start_controller_streaming s id).1.controller_states = s.controller_states := by
  unfold start_controller_streaming
  cases lookupKey s.active_controllers id <;> rfl

theorem start_lookup (s : MState) (id x : String) :
    lookupKey (start_controller_streaming s id).1.active_controllers x =
      match lookupKey s.active_controllers x with
      | some t => some t
      | none =>
        if lookupKey s.active_controllers id = none ∧ id = x then some TaskState.pending
        else none := by
  cases hid : lookupKey s.active_controllers id with
  | some t =>
    cases hx : lookupKey s.active_controllers x <;>
      simp [start_controller_streaming, hid, hx]
  | none =>
    cases hx : lookupKey s.active_controllers x with
    | some t => simp [start_controller_streaming, hid, lookupKey_append, hx]
    | none =>
      by_cases hidx : id = x <;>
        simp [start_controller_streaming, hid, lookupKey_append, hx, hidx, lookupKey]

theorem start_events (s : MState) (id : String) :
    (start_controller_streaming s id).2 =
      if lookupKey s.active_controllers id = none then [ManageEvent.started id] else [] := by
  cases hid : lookupKey s.active_controllers id <;> simp [start_controller_streaming, hid]

theorem startAll_cons (s : MState) (id : String) (rest : List String) :
    startAll s (id :: rest) =
      ((startAll (start_controller_streaming s id).1 rest).1,
       (start_controller_streaming s id).2
         ++ (startAll (start_controller_streaming s id).1 rest).2) := rfl

theorem startAll_controller_states (s : MState) (ids : List String) :
    (startAll s ids).1.controller_states = s.controller_states := by
  induction ids generalizing s with
  | nil => rfl
  | cons id rest ih =>
    rw [startAll_cons]
    simpa [start_states] using ih (start_controller_streaming s id).1

theorem startAll_lookup (s : MState) (ids : List String) (x : String) :
    lookupKey (startAll s ids).1.active_controllers x =
      match lookupKey s.active_controllers x with
      | some t => some t
      | none => if x ∈ ids then some TaskState.pending else none := by
  induction ids generalizing s with
  | nil => cases hx : lookupKey s.active_controllers x <;> simp [startAll, hx]
  | cons id rest ih =>
    rw [startAll_cons]
    show lookupKey (startAll (start_controller_streaming s id).1 rest).1.active_controllers x = _
    rw [ih, start_lookup]
    cases hx : lookupKey s.active_controllers x with
    | some t => simp
    | none =>
      cases hid : lookupKey s.active_controllers id with
      | some t =>
        have hne : ¬ x = id := by
          intro h; rw [h, hid] at hx; exact Option.noConfusion hx
        simp [List.mem_cons, hne]
      | none =>
        by_cases hidx : id = x
        · simp [hidx, List.mem_cons]
        · have hne : ¬ x = id := fun h => hidx h.symm
          simp [hidx, hne, List.mem_cons]

theorem startAll_mem_started (s : MState) (ids : List String) (x : String) :
    ManageEvent.started x ∈ (startAll s ids).2 ↔
      x ∈ ids ∧ lookupKey s.active_controllers x = none := by
  induction ids generalizing s with
  | nil => simp [startAll]
  | cons id rest ih =>
    rw [startAll_cons]
    simp only [List.mem_append, ih, start_events, start_lookup]
    cases hid : lookupKey s.active_controllers id with
    | some t =>
      cases hx : lookupKey s.active_controllers x with
      | some tx => simp [hid, hx]
      | none =>
        have hne : ¬ x = id := by
          intro h; rw [h, hid] at hx; cases hx
        simp [hid, hx, List.mem_cons, hne]
    | none =>
      cases hx : lookupKey s.active_controllers x with
      | some tx =>
        have hne : ¬ x = id := by
          intro h; rw [h, hid] at hx; cases hx
        simp [hid, hx, List.mem_cons, hne]
      | none =>
        by_cases hidx : id = x
        · simp [hid, hx, List.mem_cons, hidx]
        · have hne : ¬ x = id := fun h => hidx h.symm
          simp [hid, hx, List.mem_cons, hidx, hne]

theorem startAll_not_mem_stopped (s : MState) (ids : List String) (x : String) :
    ManageEvent.stopped x ∉ (startAll s ids).2 := by
  induction ids generalizing s with
  | nil => simp [startAll]
  | cons id rest ih =>
    rw [startAll_cons]
    intro hmem
    rcases List.mem_append.mp hmem with h | h
    · rw [start_events] at h
      by_cases hid : lookupKey s.active_controllers id = none <;> simp [hid] at h
    · exact ih _ h

theorem startAll_events_filter (s : MState) (ids : List String) (x : String)
    (hnd : ids.Nodup)
    (hfresh : ∀ i ∈ ids, lookupKey s.active_controllers i = none) :
    (startAll s ids).2.filter (fun e => e.cid == x) =
      if x ∈ ids then [ManageEvent.started x] else [] := by
  induction ids generalizing s with
  | nil => simp [startAll]
  | cons id rest ih =>
    rw [startAll_cons]
    have hid : lookupKey s.active_controllers id = none := hfresh id (List.mem_cons_self id rest)
    have hndr : rest.Nodup := hnd.of_cons
    have hidr : id ∉ rest := (List.nodup_cons.mp hnd).1
    have hfresh' : ∀ i ∈ rest, lookupKey (start_controller_streaming s id).1.active_controllers i = none := by
      intro i hi
      rw [start_lookup, hfresh i (List.mem_cons_of_mem _ hi)]
      have : ¬ id = i := fun h => hidr (h ▸ hi)
      simp [this]
    rw [List.filter_append, start_events, if_pos hid, ih _ hndr hfresh']
    by_cases hidx : id = x
    · subst hidx
      simp [List.filter_cons, ManageEvent.cid, hidr]
    · have hne : ¬ x = id := fun h => hidx h.symm
      simp [List.filter_cons, ManageEvent.cid, hidx, hne, List.mem_cons]

/-! ## Properties of the stop operation -/

theorem stop_raises_eq_false (s : MState) (id : String)
    (h : lookupKey s.active_controllers id ≠ some TaskState.failed) :
    stop_raises s id = false := by
  unfold stop_raises
  cases hid : lookupKey s.active_controllers id with
  | none => rfl
  | some t =>
    cases t with
    | failed => exact absurd hid h
    | pending => rfl
    | running => rfl
    | completed => rfl
    | cancelled => rfl

theorem stop_raises_eq_true (s : MState) (id : String)
    (h : lookupKey s.active_controllers id = some TaskState.failed) :
    stop_raises s id = true := by
  unfold stop_raises
  rw [h]

theorem stop_lookup_active (s : MState) (id x : String) :
    lookupKey (stop_controller_streaming s id).1.active_controllers x =
      if lookupKey s.active_controllers id ≠ none ∧ id = x then none
      else lookupKey s.active_controllers x := by
  cases hid : lookupKey s.active_controllers id with
  | none => simp [stop_controller_streaming, hid]
  | some t =>
    by_cases hf : t = TaskState.failed
    · by_cases hidx : id = x
      · subst hidx
        simp [stop_controller_streaming, hid, hf, lookupKey_eraseKey]
      · simp [stop_controller_streaming, hid, hf, lookupKey_eraseKey, hidx]
    · by_cases hidx : id = x
      · subst hidx
        simp [stop_controller_streaming, hid, hf, lookupKey_eraseKey]
      · simp [stop_controller_streaming, hid, hf, lookupKey_eraseKey, hidx]

theorem stop_lookup_states (s : MState) (id x : String) :
    lookupKey (stop_controller_streaming s id).1.controller_states x =
      if lookupKey s.active_controllers id ≠ none
          ∧ lookupKey s.active_controllers id ≠ some TaskState.failed ∧ id = x then none
      else lookupKey s.controller_states x := by
  cases hid : lookupKey s.active_controllers id with
  | none => simp [stop_controller_streaming, hid]
  | some t =>
    by_cases hf : t = TaskState.failed
    · subst hf
      simp [stop_controller_streaming, hid]
    · by_cases hidx : id = x
      · subst hidx
        simp [stop_controller_streaming, hid, hf, lookupKey_eraseKey]
      · simp [stop_controller_streaming, hid, hf, lookupKey_eraseKey, hidx]

theorem stop_events (s : MState) (id : String) :
    (stop_controller_streaming s id).2 =
      if lookupKey s.active_controllers id = none then [] else [ManageEvent.stopped id] := by
  cases hid : lookupKey s.active_controllers id with
  | none => simp [stop_controller_streaming, hid]
  | some t =>
    by_cases hf : t = TaskState.failed <;> simp [stop_controller_streaming, hid, hf]

theorem stop_preserves_not_failed (s : MState) (id i : String)
    (h : lookupKey s.active_controllers i ≠ some TaskState.failed) :
    lookupKey (stop_controller_streaming s id).1.active_controllers i ≠ some TaskState.failed := by
  rw [stop_lookup_active]
  by_cases hc : lookupKey s.active_controllers id ≠ none ∧ id = i
  · rw [if_pos hc]
    simp
  · rw [if_neg hc]
    exact h

theorem start_preserves_not_failed (s : MState) (id i : String)
    (h : lookupKey s.active_controllers i ≠ some TaskState.failed) :
    lookupKey (start_controller_streaming s id).1.active_controllers i ≠ some TaskState.failed := by
  rw [start_lookup]
  cases hx : lookupKey s.active_controllers i with
  | some t =>
    rw [hx] at h
    exact h
  | none =>
    by_cases hc : lookupKey s.active_controllers id = none ∧ id = i
    · rw [if_pos hc]
      simp
    · rw [if_neg hc]
      simp

theorem startAll_preserves_not_failed (s : MState) (ids : List String) (i : String)
    (h : lookupKey s.active_controllers i ≠ some TaskState.failed) :
    lookupKey (startAll s ids).1.active_controllers i ≠ some TaskState.failed := by
  induction ids generalizing s with
  | nil => exact h
  | cons id rest ih =>
    rw [startAll_cons]
    exact ih _ (start_preserves_not_failed s id i h)

theorem stopAll_st_cons (s : MState) (id : String) (rest : List String)
    (h : lookupKey s.active_controllers id ≠ some TaskState.failed) :
    (stopAll s (id :: rest)).st = (stopAll (stop_controller_streaming s id).1 rest).st := by
  simp [stopAll, stop_raises_eq_false s id h]

theorem stopAll_events_cons (s : MState) (id : String) (rest : List String)
    (h : lookupKey s.active_controllers id ≠ some TaskState.failed) :
    (stopAll s (id :: rest)).events =
      (stop_controller_streaming s id).2
        ++ (stopAll (stop_controller_streaming s id).1 rest).events := by
  simp [stopAll, stop_raises_eq_false s id h]

theorem stopAll_raised_cons (s : MState) (id : String) (rest : List String)
    (h : lookupKey s.active_controllers id ≠ some TaskState.failed) :
    (stopAll s (id :: rest)).raised = (stopAll (stop_controller_streaming s id).1 rest).raised := by
  simp [stopAll, stop_raises_eq_false s id h]

theorem stopAll_not_raised (s : MState) (ids : List String)
    (hnf : ∀ i ∈ ids, lookupKey s.active_controllers i ≠ some TaskState.failed) :
    (stopAll s ids).raised = false := by
  induction ids generalizing s with
  | nil => rfl
  | cons id rest ih =>
    have hid := hnf id (List.mem_cons_self id rest)
    rw [stopAll_raised_cons s id rest hid]
    exact ih _ fun i hi => stop_preserves_not_failed s id i (hnf i (List.mem_cons_of_mem _ hi))

theorem stopAll_lookup_active (s : MState) (ids : List String) (x : String)
    (hnf : ∀ i ∈ ids, lookupKey s.active_controllers i ≠ some TaskState.failed) :
    lookupKey (stopAll s ids).st.active_controllers x =
      if x ∈ ids then none else lookupKey s.active_controllers x := by
  induction ids generalizing s with
  | nil => simp [stopAll]
  | cons id rest ih =>
    have hid := hnf id (List.mem_cons_self id rest)
    have hnf' : ∀ i ∈ rest,
        lookupKey (stop_controller_streaming s id).1.active_controllers i
          ≠ some TaskState.failed :=
      fun i hi => stop_preserves_not_failed s id i (hnf i (List.mem_cons_of_mem _ hi))
    rw [stopAll_st_cons s id rest hid, ih _ hnf', stop_lookup_active]
    by_cases hxr : x ∈ rest
    · simp [hxr, List.mem_cons]
    · by_cases hidx : id = x
      · subst hidx
        cases hid2 : lookupKey s.active_controllers id <;>
          simp [hid2, hxr, List.mem_cons]
      · have hne : ¬ x = id := fun h => hidx h.symm
        simp [hxr, hidx, hne, List.mem_cons]

theorem stopAll_lookup_states (s : MState) (ids : List String) (x : String)
    (hnd : ids.Nodup)
    (hact : ∀ i ∈ ids, lookupKey s.active_controllers i ≠ none)
    (hnf : ∀ i ∈ ids, lookupKey s.active_controllers i ≠ some TaskState.failed) :
    lookupKey (stopAll s ids).st.controller_states x =
      if x ∈ ids then none else lookupKey s.controller_states x := by
  induction ids generalizing s with
  | nil => simp [stopAll]
  | cons id rest ih =>
    have hid : lookupKey s.active_controllers id ≠ none := hact id (List.mem_cons_self id rest)
    have hidnf := hnf id (List.mem_cons_self id rest)
    have hidr : id ∉ rest := (List.nodup_cons.mp hnd).1
    have hact' : ∀ i ∈ rest,
        lookupKey (stop_controller_streaming s id).1.active_controllers i ≠ none := by
      intro i hi
      rw [stop_lookup_active]
      have : ¬ id = i := fun h => hidr (h ▸ hi)
      simp [this]
      exact hact i (List.mem_cons_of_mem _ hi)
    have hnf' : ∀ i ∈ rest,
        lookupKey (stop_controller_streaming s id).1.active_controllers i
          ≠ some TaskState.failed :=
      fun i hi => stop_preserves_not_failed s id i (hnf i (List.mem_cons_of_mem _ hi))
    rw [stopAll_st_cons s id rest hidnf, ih _ hnd.of_cons hact' hnf', stop_lookup_states]
    by_cases hxr : x ∈ rest
    · simp [hxr, List.mem_cons]
    · by_cases hidx : id = x
      · subst hidx
        simp [hid, hidnf, hxr, List.mem_cons]
      · have hne : ¬ x = id := fun h => hidx h.symm
        simp [hxr, hidx, hne, List.mem_cons]

theorem stopAll_mem_stopped (s : MState) (ids : List String) (x : String)
    (hnf : ∀ i ∈ ids, lookupKey s.active_controllers i ≠ some TaskState.failed) :
    ManageEvent.stopped x ∈ (stopAll s ids).events ↔
      x ∈ ids ∧ lookupKey s.active_controllers x ≠ none := by
  induction ids generalizing s with
  | nil => simp [stopAll]
  | cons id rest ih =>
    have hidnf := hnf id (List.mem_cons_self id rest)
    have hnf' : ∀ i ∈ rest,
        lookupKey (stop_controller_streaming s id).1.active_controllers i
          ≠ some TaskState.failed :=
      fun i hi => stop_preserves_not_failed s id i (hnf i (List.mem_cons_of_mem _ hi))
    rw [stopAll_events_cons s id rest hidnf]
    simp only [List.mem_append, ih _ hnf', stop_events, stop_lookup_active]
    cases hid : lookupKey s.active_controllers id with
    | none =>
      cases hx : lookupKey s.active_controllers x with
      | some tx =>
        have hne : ¬ x = id := by
          intro h; rw [h, hid] at hx; exact Option.noConfusion hx
        simp [List.mem_cons, hne, hid]
      | none => simp [List.mem_cons, hid]
    | some t =>
      cases hx : lookupKey s.active_controllers x with
      | some tx =>
        by_cases hidx : id = x
        · simp [List.mem_cons, hidx, hid]
        · have hne : ¬ x = id := fun h => hidx h.symm
          simp [List.mem_cons, hidx, hne, hid]
      | none =>
        have hne : ¬ x = id := by
          intro h; rw [h, hid] at hx; exact Option.noConfusion hx
        have hne' : ¬ id = x := fun h => hne h.symm
        simp [List.mem_cons, hne, hne', hid]

theorem stopAll_not_mem_started (s : MState) (ids : List String) (x : String)
    (hnf : ∀ i ∈ ids, lookupKey s.active_controllers i ≠ some TaskState.failed) :
    ManageEvent.started x ∉ (stopAll s ids).events := by
  induction ids generalizing s with
  | nil => simp [stopAll]
  | cons id rest ih =>
    have hidnf := hnf id (List.mem_cons_self id rest)
    have hnf' : ∀ i ∈ rest,
        lookupKey (stop_controller_streaming s id).1.active_controllers i
          ≠ some TaskState.failed :=
      fun i hi => stop_preserves_not_failed s id i (hnf i (List.mem_cons_of_mem _ hi))
    rw [stopAll_events_cons s id rest hidnf]
    intro hmem
    rcases List.mem_append.mp hmem with h | h
    · rw [stop_events] at h
      by_cases hid : lookupKey s.active_controllers id = none <;> simp [hid] at h
    · exact ih _ hnf' h

theorem stopAll_events_filter (s : MState) (ids : List String) (x : String)
    (hnd : ids.Nodup)
    (hact : ∀ i ∈ ids, lookupKey s.active_controllers i ≠ none)
    (hnf : ∀ i ∈ ids, lookupKey s.active_controllers i ≠ some TaskState.failed) :
    (stopAll s ids).events.filter (fun e => e.cid == x) =
      if x ∈ ids then [ManageEvent.stopped x] else [] := by
  induction ids generalizing s with
  | nil => simp [stopAll]
  | cons id rest ih =>
    have hid : lookupKey s.active_controllers id ≠ none := hact id (List.mem_cons_self id rest)
    have hidnf := hnf id (List.mem_cons_self id rest)
    have hidr : id ∉ rest := (List.nodup_cons.mp hnd).1
    have hact' : ∀ i ∈ rest,
        lookupKey (stop_controller_streaming s id).1.active_controllers i ≠ none := by
      intro i hi
      rw [stop_lookup_active]
      have : ¬ id = i := fun h => hidr (h ▸ hi)
      simp [this]
      exact hact i (List.mem_cons_of_mem _ hi)
    have hnf' : ∀ i ∈ rest,
        lookupKey (stop_controller_streaming s id).1.active_controllers i
          ≠ some TaskState.failed :=
      fun i hi => stop_preserves_not_failed s id i (hnf i (List.mem_cons_of_mem _ hi))
    rw [stopAll_events_cons s id rest hidnf, List.filter_append, stop_events, if_neg hid,
        ih _ hnd.of_cons hact' hnf']
    by_cases hidx : id = x
    · subst hidx
      simp [List.filter_cons, ManageEvent.cid, hidr]
    · have hne : ¬ x = id := fun h => hidx h.symm
      simp [List.filter_cons, ManageEvent.cid, hidx, hne, List.mem_cons]

/-! ## Properties of the completed-task restart loop -/

theorem restart_step_preserves_not_failed (current : List String) (s : MState)
    (id i : String)
    (h : lookupKey s.active_controllers i ≠ some TaskState.failed) :
    lookupKey (if current.contains id then
        start_controller_streaming (stop_controller_streaming s id).1 id
      else ((stop_controller_streaming s id).1, [])).1.active_controllers i
      ≠ some TaskState.failed := by
  by_cases hcur : current.contains id = true
  · rw [if_pos hcur]
    exact start_preserves_not_failed _ _ _ (stop_preserves_not_failed _ _ _ h)
  · rw [if_neg (by simpa using hcur)]
    exact stop_preserves_not_failed _ _ _ h

theorem restartAll_st_cons (current : List String) (s : MState) (id : String)
    (rest : List String)
    (h : lookupKey s.active_controllers id ≠ some TaskState.failed) :
    (restartAll current s (id :: rest)).st =
      (restartAll current
        (if current.contains id then
          start_controller_streaming (stop_controller_streaming s id).1 id
        else ((stop_controller_streaming s id).1, [])).1 rest).st := by
  simp [restartAll, stop_raises_eq_false s id h]

theorem restartAll_events_cons (current : List String) (s : MState) (id : String)
    (rest : List String)
    (h : lookupKey s.active_controllers id ≠ some TaskState.failed) :
    (restartAll current s (id :: rest)).events =
      (stop_controller_streaming s id).2
        ++ (if current.contains id then
              start_controller_streaming (stop_controller_streaming s id).1 id
            else ((stop_controller_streaming s id).1, [])).2
        ++ (restartAll current
            (if current.contains id then
              start_controller_streaming (stop_controller_streaming s id).1 id
            else ((stop_controller_streaming s id).1, [])).1 rest).events := by
  simp [restartAll, stop_raises_eq_false s id h]

theorem restartAll_raised_cons (current : List String) (s : MState) (id : String)
    (rest : List String)
    (h : lookupKey s.active_controllers id ≠ some TaskState.failed) :
    (restartAll current s (id :: rest)).raised =
      (restartAll current
        (if current.contains id then
          start_controller_streaming (stop_controller_streaming s id).1 id
        else ((stop_controller_streaming s id).1, [])).1 rest).raised := by
  simp [restartAll, stop_raises_eq_false s id h]

theorem restartAll_not_raised (current : List String) (s : MState) (ids : List String)
    (hnf : ∀ i ∈ ids, lookupKey s.active_controllers i ≠ some TaskState.failed) :
    (restartAll current s ids).raised = false := by
  induction ids generalizing s with
  | nil => rfl
  | cons id rest ih =>
    have hid := hnf id (List.mem_cons_self id rest)
    rw [restartAll_raised_cons current s id rest hid]
    exact ih _ fun i hi =>
      restart_step_preserves_not_failed current s id i (hnf i (List.mem_cons_of_mem _ hi))

theorem restart_step_lookup_active (current : List String) (s : MState) (id x : String)
    (hcur : current.contains id = true) :
    lookupKey (if current.contains id then
        start_controller_streaming (stop_controller_streaming s id).1 id
      else ((stop_controller_streaming s id).1, [])).1.active_controllers x =
      if id = x then some TaskState.pending else lookupKey s.active_controllers x := by
  rw [if_pos hcur, start_lookup, stop_lookup_active, stop_lookup_active]
  by_cases hidx : id = x
  · subst hidx
    cases hid : lookupKey s.active_controllers id <;> simp [hid]
  · cases hid : lookupKey s.active_controllers id with
    | none =>
      cases hx : lookupKey s.active_controllers x <;> simp [hid, hidx, hx]
    | some t =>
      cases hx : lookupKey s.active_controllers x <;> simp [hid, hidx, hx]

theorem restartAll_lookup_active (current : List String) (s : MState)
    (ids : List String) (x : String)
    (hsub : ∀ i ∈ ids, current.contains i = true)
    (hnf : ∀ i ∈ ids, lookupKey s.active_controllers i ≠ some TaskState.failed) :
    lookupKey (restartAll current s ids).st.active_controllers x =
      if x ∈ ids then some TaskState.pending else lookupKey s.active_controllers x := by
  induction ids generalizing s with
  | nil => simp [restartAll]
  | cons id rest ih =>
    have hcur : current.contains id = true := hsub id (List.mem_cons_self id rest)
    have hidnf := hnf id (List.mem_cons_self id rest)
    have hnf' : ∀ i ∈ rest, _ := fun i hi =>
      restart_step_preserves_not_failed current s id i (hnf i (List.mem_cons_of_mem _ hi))
    rw [restartAll_st_cons current s id rest hidnf,
        ih _ (fun i hi => hsub i (List.mem_cons_of_mem _ hi)) hnf',
        restart_step_lookup_active current s id x hcur]
    by_cases hxr : x ∈ rest
    · simp [hxr, List.mem_cons]
    · by_cases hidx : id = x
      · simp [hidx, hxr, List.mem_cons]
      · have hne : ¬ x = id := fun h => hidx h.symm
        simp [hxr, hidx, hne, List.mem_cons]

theorem restart_step_lookup_states (current : List String) (s : MState) (id x : String)
    (hact : lookupKey s.active_controllers id ≠ none)
    (hnf : lookupKey s.active_controllers id ≠ some TaskState.failed) :
    lookupKey (if current.contains id then
        start_controller_streaming (stop_controller_streaming s id).1 id
      else ((stop_controller_streaming s id).1, [])).1.controller_states x =
      if id = x then none else lookupKey s.controller_states x := by
  by_cases hcur : current.contains id = true
  · rw [if_pos hcur, start_states, stop_lookup_states]
    simp [hact, hnf]
  · rw [if_neg (by simpa using hcur), stop_lookup_states]
    simp [hact, hnf]

theorem restartAll_lookup_states (current : List String) (s : MState)
    (ids : List String) (x : String)
    (hsub : ∀ i ∈ ids, current.contains i = true)
    (hact : ∀ i ∈ ids, lookupKey s.active_controllers i ≠ none)
    (hnf : ∀ i ∈ ids, lookupKey s.active_controllers i ≠ some TaskState.failed) :
    lookupKey (restartAll current s ids).st.controller_states x =
      if x ∈ ids then none else lookupKey s.controller_states x := by
  induction ids generalizing s with
  | nil => simp [restartAll]
  | cons id rest ih =>
    have hcur : current.contains id = true := hsub id (List.mem_cons_self id rest)
    have hid : lookupKey s.active_controllers id ≠ none := hact id (List.mem_cons_self id rest)
    have hidnf := hnf id (List.mem_cons_self id rest)
    have hact' : ∀ i ∈ rest,
        lookupKey (if current.contains id then
            start_controller_streaming (stop_controller_streaming s id).1 id
          else ((stop_controller_streaming s id).1, [])).1.active_controllers i ≠ none := by
      intro i hi
      rw [restart_step_lookup_active current s id i hcur]
      by_cases hidx : id = i
      · simp [hidx]
      · simp [hidx]
        exact hact i (List.mem_cons_of_mem _ hi)
    have hnf' : ∀ i ∈ rest, _ := fun i hi =>
      restart_step_preserves_not_failed current s id i (hnf i (List.mem_cons_of_mem _ hi))
    rw [restartAll_st_cons current s id rest hidnf,
        ih _ (fun i hi => hsub i (List.mem_cons_of_mem _ hi)) hact' hnf',
        restart_step_lookup_states current s id x hid hidnf]
    by_cases hxr : x ∈ rest
    · simp [hxr, List.mem_cons]
    · by_cases hidx : id = x
      · simp [hidx, hxr, List.mem_cons]
      · have hne : ¬ x = id := fun h => hidx h.symm
        simp [hxr, hidx, hne, List.mem_cons]

theorem restart_step_events (current : List String) (s : MState) (id : String)
    (hcur : current.contains id = true)
    (hact : lookupKey s.active_controllers id ≠ none) :
    (stop_controller_streaming s id).2
      ++ (if current.contains id then
            start_controller_streaming (stop_controller_streaming s id).1 id
          else ((stop_controller_streaming s id).1, [])).2 =
      [ManageEvent.stopped id, ManageEvent.started id] := by
  rw [if_pos hcur, stop_events, if_neg hact, start_events, stop_lookup_active]
  simp [hact]

theorem restartAll_events_filter (current : List String) (s : MState)
    (ids : List String) (x : String)
    (hnd : ids.Nodup)
    (hsub : ∀ i ∈ ids, current.contains i = true)
    (hact : ∀ i ∈ ids, lookupKey s.active_controllers i ≠ none)
    (hnf : ∀ i ∈ ids, lookupKey s.active_controllers i ≠ some TaskState.failed) :
    (restartAll current s ids).events.filter (fun e => e.cid == x) =
      if x ∈ ids then [ManageEvent.stopped x, ManageEvent.started x] else [] := by
  induction ids generalizing s with
  | nil => simp [restartAll]
  | cons id rest ih =>
    have hcur : current.contains id = true := hsub id (List.mem_cons_self id rest)
    have hid : lookupKey s.active_controllers id ≠ none := hact id (List.mem_cons_self id rest)
    have hidnf := hnf id (List.mem_cons_self id rest)
    have hidr : id ∉ rest := (List.nodup_cons.mp hnd).1
    have hact' : ∀ i ∈ rest,
        lookupKey (if current.contains id then
            start_controller_streaming (stop_controller_streaming s id).1 id
          else ((stop_controller_streaming s id).1, [])).1.active_controllers i ≠ none := by
      intro i hi
      rw [restart_step_lookup_active current s id i hcur]
      by_cases hidx : id = i
      · simp [hidx]
      · simp [hidx]
        exact hact i (List.mem_cons_of_mem _ hi)
    have hnf' : ∀ i ∈ rest, _ := fun i hi =>
      restart_step_preserves_not_failed current s id i (hnf i (List.mem_cons_of_mem _ hi))
    rw [restartAll_events_cons current s id rest hidnf,
        restart_step_events current s id hcur hid, List.filter_append,
        ih _ hnd.of_cons (fun i hi => hsub i (List.mem_cons_of_mem _ hi)) hact' hnf']
    by_cases hidx : id = x
    · subst hidx
      simp [List.filter_cons, ManageEvent.cid, hidr]
    · have hne : ¬ x = id := fun h => hidx h.symm
      simp [List.filter_cons, ManageEvent.cid, hidx, hne, List.mem_cons]

/-! ## Key uniqueness is preserved by the loops -/

theorem start_keys_nodup (s : MState) (id : String)
    (h : (keysOf s.active_controllers).Nodup) :
    (keysOf (start_controller_streaming s id).1.active_controllers).Nodup := by
  cases hid : lookupKey s.active_controllers id with
  | some t => simpa [start_controller_streaming, hid] using h
  | none =>
    have hmem : id ∉ keysOf s.active_controllers := (lookupKey_eq_none_iff _ _).mp hid
    simp only [start_controller_streaming, hid, keysOf, List.map_append]
    rw [List.nodup_append]
    refine ⟨h, List.nodup_singleton id, ?_⟩
    intro a ha hb
    simp at hb
    exact hmem (hb ▸ ha)

theorem startAll_keys_nodup (s : MState) (ids : List String)
    (h : (keysOf s.active_controllers).Nodup) :
    (keysOf (startAll s ids).1.active_controllers).Nodup := by
  induction ids generalizing s with
  | nil => exact h
  | cons id rest ih =>
    rw [startAll_cons]
    exact ih _ (start_keys_nodup s id h)

theorem stop_keys_nodup (s : MState) (id : String)
    (h : (keysOf s.active_controllers).Nodup) :
    (keysOf (stop_controller_streaming s id).1.active_controllers).Nodup := by
  cases hid : lookupKey s.active_controllers id with
  | none => simpa [stop_controller_streaming, hid] using h
  | some t =>
    by_cases hf : t = TaskState.failed
    · simp only [stop_controller_streaming, hid, hf, if_pos rfl]
      exact keysOf_nodup_eraseKey id h
    · simp only [stop_controller_streaming, hid, if_neg hf]
      exact keysOf_nodup_eraseKey id h

theorem stopAll_keys_nodup (s : MState) (ids : List String)
    (h : (keysOf s.active_controllers).Nodup) :
    (keysOf (stopAll s ids).st.active_controllers).Nodup := by
  induction ids generalizing s with
  | nil => exact h
  | cons id rest ih =>
    by_cases hr : stop_raises s id = true
    · simp only [stopAll, hr, if_pos rfl]
      exact stop_keys_nodup s id h
    · have hr' : stop_raises s id = false := by
        cases hb : stop_raises s id
        · rfl
        · exact absurd hb hr
      simp only [stopAll, hr', Bool.false_eq_true, if_false]
      exact ih _ (stop_keys_nodup s id h)

/-! ## Characterizations of the three diffs of a discovery cycle -/

theorem mem_discoverNewIds (s : MState) (current : List String) (x : String) :
    x ∈ discoverNewIds s current ↔
      x ∈ current ∧ lookupKey s.active_controllers x = none := by
  simp [discoverNewIds, List.mem_filter]

theorem mem_discoverRemovedIds (s : MState) (current : List String) (x : String) :
    x ∈ discoverRemovedIds s current ↔
      lookupKey s.active_controllers x ≠ none ∧ x ∉ current := by
  unfold discoverRemovedIds
  rw [List.mem_filter]
  have hcc : current.contains x = true ↔ x ∈ current := List.elem_iff
  constructor
  · rintro ⟨hk, hc⟩
    refine ⟨fun hnone => absurd hk ((lookupKey_eq_none_iff _ _).mp hnone), fun hmem => ?_⟩
    rw [decide_eq_true_eq] at hc
    exact hc (hcc.mpr hmem)
  · rintro ⟨hl, hc⟩
    refine ⟨?_, ?_⟩
    · by_contra hk
      exact hl ((lookupKey_eq_none_iff _ _).mpr hk)
    · rw [decide_eq_true_eq]
      exact fun hmem => hc (hcc.mp hmem)

theorem mem_keys_filter_done (l : List (String × TaskState)) (x : String)
    (hnd : (keysOf l).Nodup) :
    x ∈ keysOf (l.filter fun p => p.2.done) ↔
      ∃ t, lookupKey l x = some t ∧ t.done = true := by
  induction l with
  | nil => simp
  | cons p rest ih =>
    rw [keysOf_cons] at hnd
    have hpr : p.1 ∉ keysOf rest := (List.nodup_cons.mp hnd).1
    have hnd' : (keysOf rest).Nodup := (List.nodup_cons.mp hnd).2
    by_cases hd : p.2.done = true
    · by_cases hpx : p.1 = x
      · subst hpx
        simp [List.filter_cons, hd]
      · have hne : ¬ x = p.1 := fun h => hpx h.symm
        rw [List.filter_cons, if_pos (by simpa using hd)]
        rw [keysOf_cons, List.mem_cons, lookupKey_cons, if_neg hpx]
        rw [ih hnd']
        simp [hne]
    · by_cases hpx : p.1 = x
      · subst hpx
        rw [List.filter_cons, if_neg (by simpa using hd)]
        rw [ih hnd', lookupKey_cons, if_pos rfl]
        constructor
        · rintro ⟨t, ht, htd⟩
          have hmem : p.1 ∈ keysOf rest := by
            by_contra hc
            rw [(lookupKey_eq_none_iff rest p.1).mpr hc] at ht
            exact Option.noConfusion ht
          exact absurd hmem hpr
        · rintro ⟨t, ht, htd⟩
          rw [← Option.some.injEq p.2 t |>.mp ht] at htd
          exact absurd htd hd
      · rw [List.filter_cons, if_neg (by simpa using hd)]
        rw [ih hnd', lookupKey_cons, if_neg hpx]

theorem mem_discoverDoneIds (s : MState) (x : String)
    (hnd : (keysOf s.active_controllers).Nodup) :
    x ∈ discoverDoneIds s ↔
      ∃ t, lookupKey s.active_controllers x = some t ∧ t.done = true :=
  mem_keys_filter_done s.active_controllers x hnd

/-! ## Anatomy of one discovery cycle -/

theorem lookupKey_not_failed_of_forall {l : List (String × TaskState)}
    (h : ∀ p ∈ l, p.2 ≠ TaskState.failed) (x : String) :
    lookupKey l x ≠ some TaskState.failed := by
  induction l with
  | nil => simp
  | cons p rest ih =>
    rw [lookupKey_cons]
    by_cases hp : p.1 = x
    · rw [if_pos hp]
      intro hc
      exact h p (List.mem_cons_self _ _) (by simpa using hc)
    · rw [if_neg hp]
      exact ih fun q hq => h q (List.mem_cons_of_mem _ hq)

theorem discover_no_abort_unfold (s : MState) (d : List String)
    (hnf : ∀ y, lookupKey s.active_controllers y ≠ some TaskState.failed) :
    discover_and_manage_controllers s d =
      ⟨(restartAll d.dedup
          (stopAll (startAll s (discoverNewIds s d.dedup)).1
            (discoverRemovedIds (startAll s (discoverNewIds s d.dedup)).1 d.dedup)).st
          (discoverDoneIds (stopAll (startAll s (discoverNewIds s d.dedup)).1
            (discoverRemovedIds (startAll s (discoverNewIds s d.dedup)).1 d.dedup)).st)).st,
       (startAll s (discoverNewIds s d.dedup)).2
         ++ ((stopAll (startAll s (discoverNewIds s d.dedup)).1
              (discoverRemovedIds (startAll s (discoverNewIds s d.dedup)).1 d.dedup)).events
         ++ (restartAll d.dedup
              (stopAll (startAll s (discoverNewIds s d.dedup)).1
                (discoverRemovedIds (startAll s (discoverNewIds s d.dedup)).1 d.dedup)).st
              (discoverDoneIds (stopAll (startAll s (discoverNewIds s d.dedup)).1
                (discoverRemovedIds (startAll s (discoverNewIds s d.dedup)).1 d.dedup)).st)).events),
       (restartAll d.dedup
          (stopAll (startAll s (discoverNewIds s d.dedup)).1
            (discoverRemovedIds (startAll s (discoverNewIds s d.dedup)).1 d.dedup)).st
          (discoverDoneIds (stopAll (startAll s (discoverNewIds s d.dedup)).1
            (discoverRemovedIds (startAll s (discoverNewIds s d.dedup)).1 d.dedup)).st)).raised⟩ := by
  have hnr : (stopAll (startAll s (discoverNewIds s d.dedup)).1
      (discoverRemovedIds (startAll s (discoverNewIds s d.dedup)).1 d.dedup)).raised = false :=
    stopAll_not_raised _ _ fun i _ =>
      startAll_preserves_not_failed s (discoverNewIds s d.dedup) i (hnf i)
  simp only [discover_and_manage_controllers, hnr, Bool.false_eq_true, if_false]

theorem discover_rem_spec (s : MState) (cur : List String) (x : String) :
    x ∈ discoverRemovedIds (startAll s (discoverNewIds s cur)).1 cur ↔
      lookupKey s.active_controllers x ≠ none ∧ x ∉ cur := by
  rw [mem_discoverRemovedIds, startAll_lookup]
  cases hx : lookupKey s.active_controllers x with
  | some t => simp
  | none =>
    constructor
    · rintro ⟨hne, hnc⟩
      by_cases hn : x ∈ discoverNewIds s cur
      · exact absurd ((mem_discoverNewIds s cur x).mp hn).1 hnc
      · simp [hn] at hne
    · rintro ⟨hne, _⟩
      exact absurd rfl hne

theorem discover_s2_lookup (s : MState) (cur : List String) (x : String)
    (hnf : ∀ y, lookupKey s.active_controllers y ≠ some TaskState.failed) :
    lookupKey (stopAll (startAll s (discoverNewIds s cur)).1
        (discoverRemovedIds (startAll s (discoverNewIds s cur)).1 cur)).st.active_controllers x =
      if x ∈ cur then
        (match lookupKey s.active_controllers x with
         | none => some TaskState.pending
         | some t => some t)
      else none := by
  rw [stopAll_lookup_active _ _ _ fun i _ =>
    startAll_preserves_not_failed s (discoverNewIds s cur) i (hnf i)]
  by_cases hc : x ∈ cur
  · have hnr : x ∉ discoverRemovedIds (startAll s (discoverNewIds s cur)).1 cur := by
      rw [discover_rem_spec]
      exact fun h => h.2 hc
    rw [if_neg hnr, if_pos hc, startAll_lookup]
    cases hx : lookupKey s.active_controllers x with
    | some t => simp
    | none =>
      have hn : x ∈ discoverNewIds s cur := (mem_discoverNewIds s cur x).mpr ⟨hc, hx⟩
      simp [hn]
  · rw [if_neg hc]
    by_cases hr : x ∈ discoverRemovedIds (startAll s (discoverNewIds s cur)).1 cur
    · rw [if_pos hr]
    · rw [if_neg hr]
      rw [discover_rem_spec] at hr
      push_neg at hr
      rw [startAll_lookup]
      cases hx : lookupKey s.active_controllers x with
      | some t => exact absurd (hr (by simp [hx])) hc
      | none =>
        have hn : x ∉ discoverNewIds s cur := by
          rw [mem_discoverNewIds]
          exact fun h => hc h.1
        simp [hn]

theorem discover_s2_keys_nodup (s : MState) (cur : List String)
    (hnd : (keysOf s.active_controllers).Nodup) :
    (keysOf (stopAll (startAll s (discoverNewIds s cur)).1
        (discoverRemovedIds (startAll s (discoverNewIds s cur)).1 cur)).st.active_controllers).Nodup :=
  stopAll_keys_nodup _ _ (startAll_keys_nodup _ _ hnd)

theorem discover_s2_not_failed (s : MState) (cur : List String) (y : String)
    (hnf : ∀ z, lookupKey s.active_controllers z ≠ some TaskState.failed) :
    lookupKey (stopAll (startAll s (discoverNewIds s cur)).1
        (discoverRemovedIds (startAll s (discoverNewIds s cur)).1 cur)).st.active_controllers y
      ≠ some TaskState.failed := by
  rw [discover_s2_lookup s cur y hnf]
  by_cases hc : y ∈ cur
  · rw [if_pos hc]
    cases hy : lookupKey s.active_controllers y with
    | none => simp
    | some t =>
      intro hcontra
      simp only [Option.some.injEq] at hcontra
      exact hnf y (by rw [hy, hcontra])
  · rw [if_neg hc]
    simp

theorem discover_dn_spec (s : MState) (cur : List String) (x : String)
    (hnd : (keysOf s.active_controllers).Nodup)
    (hnf : ∀ y, lookupKey s.active_controllers y ≠ some TaskState.failed) :
    x ∈ discoverDoneIds (stopAll (startAll s (discoverNewIds s cur)).1
        (discoverRemovedIds (startAll s (discoverNewIds s cur)).1 cur)).st ↔
      x ∈ cur ∧ ∃ t, lookupKey s.active_controllers x = some t ∧ t.done = true := by
  rw [mem_discoverDoneIds _ _ (discover_s2_keys_nodup s cur hnd)]
  constructor
  · rintro ⟨t, ht, htd⟩
    rw [discover_s2_lookup s cur x hnf] at ht
    by_cases hc : x ∈ cur
    · rw [if_pos hc] at ht
      refine ⟨hc, ?_⟩
      cases hx : lookupKey s.active_controllers x with
      | none =>
        rw [hx] at ht
        have hpt : TaskState.pending = t := by
          simpa using ht
        rw [← hpt] at htd
        exact absurd htd (by simp [TaskState.done])
      | some u =>
        rw [hx] at ht
        have hut : u = t := by
          simpa using ht
        exact ⟨u, rfl, by rw [hut]; exact htd⟩
    · rw [if_neg hc] at ht
      exact Option.noConfusion ht
  · rintro ⟨hc, t, ht, htd⟩
    refine ⟨t, ?_, htd⟩
    rw [discover_s2_lookup s cur x hnf, if_pos hc, ht]

theorem discover_raised_false (s : MState) (d : List String)
    (hnf : ∀ y, lookupKey s.active_controllers y ≠ some TaskState.failed) :
    (discover_and_manage_controllers s d).raised = false := by
  rw [discover_no_abort_unfold s d hnf]
  exact restartAll_not_raised _ _ _ fun i _ => discover_s2_not_failed s d.dedup i hnf

theorem discover_lookup_active (s : MState) (d : List String) (x : String)
    (hnd : (keysOf s.active_controllers).Nodup)
    (hnf : ∀ y, lookupKey s.active_controllers y ≠ some TaskState.failed) :
    lookupKey (discover_and_manage_controllers s d).st.active_controllers x =
      if x ∈ d then
        (match lookupKey s.active_controllers x with
         | none => some TaskState.pending
         | some t => if t.done = true then some TaskState.pending else some t)
      else none := by
  rw [discover_no_abort_unfold s d hnf]
  set cur := d.dedup with hcv
  set n := discoverNewIds s cur with hnv
  set s1 := (startAll s n).1 with hs1v
  set rem := discoverRemovedIds s1 cur with hremv
  set s2 := (stopAll s1 rem).st with hs2v
  set dn := discoverDoneIds s2 with hdnv
  have hsub : ∀ i ∈ dn, cur.contains i = true := by
    intro i hi
    exact List.elem_iff.mpr ((discover_dn_spec s cur i hnd hnf).mp hi).1
  have hnfdn : ∀ i ∈ dn, lookupKey s2.active_controllers i ≠ some TaskState.failed :=
    fun i _ => discover_s2_not_failed s cur i hnf
  rw [restartAll_lookup_active cur s2 dn x hsub hnfdn]
  by_cases hdn : x ∈ dn
  · obtain ⟨hc, t, ht, htd⟩ := (discover_dn_spec s cur x hnd hnf).mp hdn
    rw [if_pos hdn, if_pos (List.mem_dedup.mp hc), ht]
    simp [htd]
  · rw [if_neg hdn]
    have hs2 := discover_s2_lookup s cur x hnf
    rw [← hnv, ← hs1v, ← hremv, ← hs2v] at hs2
    rw [hs2]
    by_cases hc : x ∈ cur
    · rw [if_pos hc, if_pos (List.mem_dedup.mp hc)]
      cases hx : lookupKey s.active_controllers x with
      | none => rfl
      | some t =>
        have htd : ¬ t.done = true := by
          intro htd
          exact hdn ((discover_dn_spec s cur x hnd hnf).mpr ⟨hc, t, hx, htd⟩)
        simp [htd]
    · rw [if_neg hc, if_neg (fun hmem => hc (List.mem_dedup.mpr hmem))]

theorem discover_lookup_states (s : MState) (d : List String) (x : String)
    (hnd : (keysOf s.active_controllers).Nodup)
    (hnf : ∀ y, lookupKey s.active_controllers y ≠ some TaskState.failed) :
    lookupKey (discover_and_manage_controllers s d).st.controller_states x =
      if (lookupKey s.active_controllers x ≠ none ∧ x ∉ d)
          ∨ (x ∈ d ∧ ∃ t, lookupKey s.active_controllers x = some t ∧ t.done = true)
      then none
      else lookupKey s.controller_states x := by
  rw [discover_no_abort_unfold s d hnf]
  set cur := d.dedup with hcv
  set n := discoverNewIds s cur with hnv
  set s1 := (startAll s n).1 with hs1v
  set rem := discoverRemovedIds s1 cur with hremv
  set s2 := (stopAll s1 rem).st with hs2v
  set dn := discoverDoneIds s2 with hdnv
  have hsub : ∀ i ∈ dn, cur.contains i = true := by
    intro i hi
    exact List.elem_iff.mpr ((discover_dn_spec s cur i hnd hnf).mp hi).1
  have hnfdn : ∀ i ∈ dn, lookupKey s2.active_controllers i ≠ some TaskState.failed :=
    fun i _ => discover_s2_not_failed s cur i hnf
  have hact : ∀ i ∈ dn, lookupKey s2.active_controllers i ≠ none := by
    intro i hi
    obtain ⟨hc, t, ht, htd⟩ := (discover_dn_spec s cur i hnd hnf).mp hi
    have hs2 := discover_s2_lookup s cur i hnf
    rw [← hnv, ← hs1v, ← hremv, ← hs2v] at hs2
    rw [hs2, if_pos hc, ht]
    simp
  rw [restartAll_lookup_states cur s2 dn x hsub hact hnfdn]
  have hremnd : rem.Nodup :=
    List.Nodup.filter _ (startAll_keys_nodup s n hnd)
  have hremact : ∀ i ∈ rem, lookupKey s1.active_controllers i ≠ none := by
    intro i hi
    exact ((mem_discoverRemovedIds s1 cur i).mp hi).1
  have hremnf : ∀ i ∈ rem, lookupKey s1.active_controllers i ≠ some TaskState.failed :=
    fun i _ => startAll_preserves_not_failed s n i (hnf i)
  have hs2states := stopAll_lookup_states s1 rem x hremnd hremact hremnf
  rw [← hs2v] at hs2states
  rw [hs2states, startAll_controller_states]
  by_cases hdn : x ∈ dn
  · obtain ⟨hc, t, ht, htd⟩ := (discover_dn_spec s cur x hnd hnf).mp hdn
    rw [if_pos hdn,
        if_pos (Or.inr ⟨List.mem_dedup.mp hc, t, ht, htd⟩)]
  · rw [if_neg hdn]
    by_cases hrem : x ∈ rem
    · obtain ⟨hl, hnc⟩ := (discover_rem_spec s cur x).mp hrem
      rw [if_pos hrem,
          if_pos (Or.inl ⟨hl, fun hmem => hnc (List.mem_dedup.mpr hmem)⟩)]
    · rw [if_neg hrem, if_neg ?_]
      rintro (⟨hl, hnc⟩ | ⟨hc, t, ht, htd⟩)
      · exact hrem ((discover_rem_spec s cur x).mpr ⟨hl, fun hmem => hnc (List.mem_dedup.mp hmem)⟩)
      · exact hdn ((discover_dn_spec s cur x hnd hnf).mpr ⟨List.mem_dedup.mpr hc, t, ht, htd⟩)

theorem discover_events_filter (s : MState) (d : List String) (x : String)
    (hnd : (keysOf s.active_controllers).Nodup)
    (hnf : ∀ y, lookupKey s.active_controllers y ≠ some TaskState.failed) :
    (discover_and_manage_controllers s d).events.filter (fun e => e.cid == x) =
      if lookupKey s.active_controllers x = none ∧ x ∈ d then
        [ManageEvent.started x]
      else if lookupKey s.active_controllers x ≠ none ∧ x ∉ d then
        [ManageEvent.stopped x]
      else if x ∈ d ∧ ∃ t, lookupKey s.active_controllers x = some t ∧ t.done = true then
        [ManageEvent.stopped x, ManageEvent.started x]
      else [] := by
  rw [discover_no_abort_unfold s d hnf]
  set cur := d.dedup with hcv
  set n := discoverNewIds s cur with hnv
  set s1 := (startAll s n).1 with hs1v
  set rem := discoverRemovedIds s1 cur with hremv
  set s2 := (stopAll s1 rem).st with hs2v
  set dn := discoverDoneIds s2 with hdnv
  have hcurnd : cur.Nodup := List.nodup_dedup d
  have hnnd : n.Nodup := List.Nodup.filter _ hcurnd
  have hnfresh : ∀ i ∈ n, lookupKey s.active_controllers i = none := by
    intro i hi
    exact ((mem_discoverNewIds s cur i).mp hi).2
  have hremnd : rem.Nodup :=
    List.Nodup.filter _ (startAll_keys_nodup s n hnd)
  have hremact : ∀ i ∈ rem, lookupKey s1.active_controllers i ≠ none := by
    intro i hi
    exact ((mem_discoverRemovedIds s1 cur i).mp hi).1
  have hremnf : ∀ i ∈ rem, lookupKey s1.active_controllers i ≠ some TaskState.failed :=
    fun i _ => startAll_preserves_not_failed s n i (hnf i)
  have hdnnd : dn.Nodup :=
    List.Nodup.sublist ((List.filter_sublist _).map Prod.fst)
      (discover_s2_keys_nodup s cur hnd)
  have hsub : ∀ i ∈ dn, cur.contains i = true := by
    intro i hi
    exact List.elem_iff.mpr ((discover_dn_spec s cur i hnd hnf).mp hi).1
  have hnfdn : ∀ i ∈ dn, lookupKey s2.active_controllers i ≠ some TaskState.failed :=
    fun i _ => discover_s2_not_failed s cur i hnf
  have hact : ∀ i ∈ dn, lookupKey s2.active_controllers i ≠ none := by
    intro i hi
    obtain ⟨hc, t, ht, htd⟩ := (discover_dn_spec s cur i hnd hnf).mp hi
    have hs2 := discover_s2_lookup s cur i hnf
    rw [← hnv, ← hs1v, ← hremv, ← hs2v] at hs2
    rw [hs2, if_pos hc, ht]
    simp
  rw [List.filter_append, List.filter_append,
      startAll_events_filter s n x hnnd hnfresh,
      stopAll_events_filter s1 rem x hremnd hremact hremnf,
      restartAll_events_filter cur s2 dn x hdnnd hsub hact hnfdn]
  by_cases hn : x ∈ n
  · obtain ⟨hc, hnone⟩ := (mem_discoverNewIds s cur x).mp hn
    have hrem : x ∉ rem := fun h => ((discover_rem_spec s cur x).mp h).1 hnone
    have hdn : x ∉ dn := by
      intro h
      obtain ⟨_, t, ht, _⟩ := (discover_dn_spec s cur x hnd hnf).mp h
      rw [hnone] at ht
      exact Option.noConfusion ht
    rw [if_pos hn, if_neg hrem, if_neg hdn,
        if_pos ⟨hnone, List.mem_dedup.mp hc⟩]
    simp
  · rw [if_neg hn]
    by_cases hrem : x ∈ rem
    · obtain ⟨hl, hnc⟩ := (discover_rem_spec s cur x).mp hrem
      have hdn : x ∉ dn := by
        intro h
        exact hnc ((discover_dn_spec s cur x hnd hnf).mp h).1
      rw [if_pos hrem, if_neg hdn,
          if_neg (fun h => hl h.1),
          if_pos ⟨hl, fun hmem => hnc (List.mem_dedup.mpr hmem)⟩]
      simp
    · rw [if_neg hrem]
      by_cases hdn : x ∈ dn
      · obtain ⟨hc, t, ht, htd⟩ := (discover_dn_spec s cur x hnd hnf).mp hdn
        rw [if_pos hdn,
            if_neg (fun h => Option.noConfusion (ht ▸ h.1)),
            if_neg (fun h => h.2 (List.mem_dedup.mp hc)),
            if_pos ⟨List.mem_dedup.mp hc, t, ht, htd⟩]
        simp
      · have hc1 : ¬ (lookupKey s.active_controllers x = none ∧ x ∈ d) := by
          rintro ⟨hnone, hmem⟩
          exact hn ((mem_discoverNewIds s cur x).mpr ⟨List.mem_dedup.mpr hmem, hnone⟩)
        have hc2 : ¬ (lookupKey s.active_controllers x ≠ none ∧ x ∉ d) := by
          rintro ⟨hl, hnd2⟩
          exact hrem ((discover_rem_spec s cur x).mpr ⟨hl, fun hcc => hnd2 (List.mem_dedup.mp hcc)⟩)
        have hc3 : ¬ (x ∈ d ∧ ∃ t, lookupKey s.active_controllers x = some t ∧ t.done = true) := by
          rintro ⟨hmem, t, ht, htd⟩
          exact hdn ((discover_dn_spec s cur x hnd hnf).mpr ⟨List.mem_dedup.mpr hmem, t, ht, htd⟩)
        rw [if_neg hdn, if_neg hc1, if_neg hc2, if_neg hc3]
        simp

/-! ## Claim theorems -/

/-- Claim C4: for every raw safety-state value, report_safety_state
publishes exactly one active-error record with code equal to the raw value
and severity equal to the highest level when the value is the
emergency-stop value, publishes an empty active-error list when the value
is the normal value, and publishes nothing for any other value. -/
theorem C4_classifier_cases (v : String) (ts : Nat) :
    (v = "SAFETY_STATE_ROBOT_EMERGENCY_STOP" →
      report_safety_state v ts = some
        ⟨ts, [⟨"Robot Controller Safety State", v,
              "Safety state of the robot controller has changed.",
              "robot_controller", highest_severity_level⟩]⟩)
    ∧ (v = "SAFETY_STATE_NORMAL" → report_safety_state v ts = some ⟨ts, []⟩)
    ∧ (v ≠ "SAFETY_STATE_ROBOT_EMERGENCY_STOP" → v ≠ "SAFETY_STATE_NORMAL" →
      report_safety_state v ts = none) := by
  refine ⟨?_, ?_, ?_⟩
  · intro h
    subst h
    rfl
  · intro h
    subst h
    rfl
  · intro h1 h2
    simp [report_safety_state, h1, h2]

/-- Witness for C4 at the three kinds of concrete value. -/
theorem C4_classifier_cases_witness :
    report_safety_state "SAFETY_STATE_ROBOT_EMERGENCY_STOP" 0 = some
      ⟨0, [⟨"Robot Controller Safety State", "SAFETY_STATE_ROBOT_EMERGENCY_STOP",
           "Safety state of the robot controller has changed.",
           "robot_controller", highest_severity_level⟩]⟩
    ∧ report_safety_state "SAFETY_STATE_NORMAL" 1 = some ⟨1, []⟩
    ∧ report_safety_state "SAFETY_STATE_STOP_0" 2 = none :=
  ⟨(C4_classifier_cases _ 0).1 rfl,
   (C4_classifier_cases _ 1).2.1 rfl,
   (C4_classifier_cases _ 2).2.2 (by decide) (by decide)⟩

/-- Claim C3 counterexample: with no prior baseline, the first NORMAL event
differs from the absent previous value, so report_safety_state is invoked
and publishes a report with an empty active-error list; the observed
sequence NORMAL, EMERGENCY, EMERGENCY, NORMAL therefore publishes three
reports, not the two the claim states, and a report is published for the
first event, which the claim denies. -/
theorem C3_counterexample :
    (published_reports 0 none
        ["SAFETY_STATE_NORMAL", "SAFETY_STATE_ROBOT_EMERGENCY_STOP",
         "SAFETY_STATE_ROBOT_EMERGENCY_STOP", "SAFETY_STATE_NORMAL"]).length = 3
    ∧ (published_reports 0 none
        ["SAFETY_STATE_NORMAL", "SAFETY_STATE_ROBOT_EMERGENCY_STOP",
         "SAFETY_STATE_ROBOT_EMERGENCY_STOP", "SAFETY_STATE_NORMAL"]).get? 0
        = some ⟨0, []⟩ := by
  decide

/-- Claim C3 (amended): for one controller whose task starts with no prior
safety-state baseline and observes NORMAL, EMERGENCY, EMERGENCY, NORMAL,
exactly three reports are published: one with zero active errors on the
first NORMAL (the first observation always counts as a change), one with
one active error on the first EMERGENCY, and one with zero active errors
on the final NORMAL; the repeated EMERGENCY produces none. -/
theorem C3_report_sequence :
    published_reports 0 none
        ["SAFETY_STATE_NORMAL", "SAFETY_STATE_ROBOT_EMERGENCY_STOP",
         "SAFETY_STATE_ROBOT_EMERGENCY_STOP", "SAFETY_STATE_NORMAL"] =
      [⟨0, []⟩,
       ⟨0, [⟨"Robot Controller Safety State", "SAFETY_STATE_ROBOT_EMERGENCY_STOP",
            "Safety state of the robot controller has changed.",
            "robot_controller", 4⟩]⟩,
       ⟨0, []⟩] := by
  decide

/-- Claim C8: the descriptor mapping is deterministic (it is a pure
function of the controller record); each known manufacturer kind maps to
its fixed lower-cased slug with the model taken from the lower-cased kind,
and a virtual kind takes its model slug from the portion of the type
string after the last separator, with the remaining separators normalized
to the canonical one and lower-cased; spec_known_descriptor_slug and
spec_virtual_model_slug are the lookup-table renderings of the spec text
that the mapping is checked against. -/
theorem C8_descriptor_mapping (nm : String) (cfg : ControllerConfiguration) :
    (∀ slug model, spec_known_descriptor_slug cfg = some (slug, model) →
      ∃ fs, map_robot_controller_to_waku_device ⟨nm, cfg⟩ = Except.ok fs
        ∧ fs.manufacturer = slug ∧ fs.model = model)
    ∧ (∀ manu ty, cfg = ControllerConfiguration.VirtualController manu ty →
      ∃ fs, map_robot_controller_to_waku_device ⟨nm, cfg⟩ = Except.ok fs
        ∧ fs.model = spec_virtual_model_slug ty) := by
  constructor
  · intro slug model hs
    cases cfg with
    | AbbController kind =>
      simp [spec_known_descriptor_slug] at hs
      exact ⟨_, rfl, hs.1, hs.2⟩
    | FanucController kind =>
      simp [spec_known_descriptor_slug] at hs
      exact ⟨_, rfl, hs.1, hs.2⟩
    | KukaController kind =>
      simp [spec_known_descriptor_slug] at hs
      exact ⟨_, rfl, hs.1, hs.2⟩
    | UniversalrobotsController kind =>
      simp [spec_known_descriptor_slug] at hs
      exact ⟨_, rfl, hs.1, hs.2⟩
    | YaskawaController kind =>
      simp [spec_known_descriptor_slug] at hs
      exact ⟨_, rfl, hs.1, hs.2⟩
    | VirtualController manu ty => simp [spec_known_descriptor_slug] at hs
    | UnknownController => simp [spec_known_descriptor_slug] at hs
  · intro manu ty hcfg
    subst hcfg
    exact ⟨_, rfl, rfl⟩

/-- Witness for C8 on a concrete known kind and a concrete virtual kind. -/
theorem C8_descriptor_mapping_witness :
    (∃ fs, map_robot_controller_to_waku_device
        ⟨"c1", ControllerConfiguration.AbbController "IRC5"⟩ = Except.ok fs
      ∧ fs.manufacturer = "abb" ∧ fs.model = strLower "IRC5")
    ∧ (∃ fs, map_robot_controller_to_waku_device
        ⟨"c2", ControllerConfiguration.VirtualController "UniversalRobots" "virtual-UR5 e_series"⟩
          = Except.ok fs
      ∧ fs.model = spec_virtual_model_slug "virtual-UR5 e_series") :=
  ⟨(C8_descriptor_mapping "c1" _).1 "abb" (strLower "IRC5") rfl,
   (C8_descriptor_mapping "c2" _).2 "UniversalRobots" "virtual-UR5 e_series" rfl⟩

/-- Claim C10: a controller whose configuration matches none of the known
manufacturer kinds and is not a virtual controller leaves manufacturer and
model unset, so constructing the DeviceFactsheet (whose manufacturer and
model are required string fields) fails with a validation error, and the
streaming task for that controller fails before registering anything:
its trace is just the configuration fetch, with no register, connect,
consume or publish action. -/
theorem C10_unknown_kind_validation_failure (nm : String)
    (registerOk connectOk : Bool) (ts : Nat) (prev : Option String)
    (events : List String) :
    map_robot_controller_to_waku_device ⟨nm, ControllerConfiguration.UnknownController⟩
        = Except.error "ValidationError: manufacturer and model are required string fields"
    ∧ (stream_controller_state_trace ⟨nm, ControllerConfiguration.UnknownController⟩
        registerOk connectOk ts prev events).2
        = TaskResult.failed "ValidationError: manufacturer and model are required string fields"
    ∧ (stream_controller_state_trace ⟨nm, ControllerConfiguration.UnknownController⟩
        registerOk connectOk ts prev events).1
        = [TaskAction.fetchConfig nm] :=
  ⟨rfl, rfl, rfl⟩

/-- Claim C6: the start operation on an identity that already has a task
record returns a failure response with a reason and leaves the manager
state, including the existing task record and the safety-state tracker
entry, unchanged, so no second task is created. -/
theorem C6_start_already_active (s : MState) (id : String) (t : TaskState)
    (h : lookupKey s.active_controllers id = some t) :
    api_start_controller_streaming s id =
      (s, ⟨false, "Controller " ++ id ++ " is already streaming", some id⟩) := by
  simp [api_start_controller_streaming, h]

/-- Witness for C6 at a concrete already-active identity. -/
theorem C6_start_already_active_witness :
    (api_start_controller_streaming
        ⟨[("A", TaskState.running)], [("A", "SAFETY_STATE_NORMAL")]⟩ "A").1
      = ⟨[("A", TaskState.running)], [("A", "SAFETY_STATE_NORMAL")]⟩
    ∧ (api_start_controller_streaming
        ⟨[("A", TaskState.running)], [("A", "SAFETY_STATE_NORMAL")]⟩ "A").2.success = false := by
  have h := C6_start_already_active
    ⟨[("A", TaskState.running)], [("A", "SAFETY_STATE_NORMAL")]⟩ "A"
    TaskState.running (by decide)
  exact ⟨by rw [h], by rw [h]⟩

/-- Claim C2 counterexample: stop_controller_streaming pops the record
from active_controllers as its very first micro-step (index 0) and only
then cancels and awaits the task (the await acknowledgment is at index 2),
so the identity is already free for a new start before cancellation has
been acknowledged — the claimed remove-only-after-finish order is false. -/
theorem C2_counterexample :
    stop_controller_streaming_steps
        ⟨[("A", TaskState.running)], [("A", "SAFETY_STATE_NORMAL")]⟩ "A"
      = [StopAction.popRecord "A", StopAction.cancelTask "A",
         StopAction.awaitFinish "A", StopAction.removeTracker "A"]
    ∧ (stop_controller_streaming_steps
        ⟨[("A", TaskState.running)], [("A", "SAFETY_STATE_NORMAL")]⟩ "A").get? 0
      = some (StopAction.popRecord "A")
    ∧ (stop_controller_streaming_steps
        ⟨[("A", TaskState.running)], [("A", "SAFETY_STATE_NORMAL")]⟩ "A").get? 2
      = some (StopAction.awaitFinish "A") := by
  decide

/-- Claim C2 (amended): for an identity whose task record exists and has a
tracker entry, the stop operation first removes the identity record from
the active-task map, then signals cancellation and awaits the task; when
the task had not finished with an exception, the tracker entry is removed
only after the wait; when the task had failed, the await re-raises the
task stored exception, so the tracker entry is never removed and the
exception propagates to the caller; in every case the identity is free
for a new start from the moment the record is popped, before cancellation
has been acknowledged. -/
theorem C2_stop_pops_record_before_wait (s : MState) (id : String) (t : TaskState)
    (h : lookupKey s.active_controllers id = some t)
    (htr : (lookupKey s.controller_states id).isSome = true) :
    (t.isCancelled = false → t ≠ TaskState.failed →
      stop_controller_streaming_steps s id =
        [StopAction.popRecord id, StopAction.cancelTask id,
         StopAction.awaitFinish id, StopAction.removeTracker id])
    ∧ (t = TaskState.failed →
      stop_controller_streaming_steps s id =
        [StopAction.popRecord id, StopAction.cancelTask id, StopAction.awaitFinish id]
      ∧ stop_raises s id = true
      ∧ lookupKey (stop_controller_streaming s id).1.controller_states id
          = lookupKey s.controller_states id)
    ∧ lookupKey (stop_controller_streaming s id).1.active_controllers id = none := by
  refine ⟨?_, ?_, ?_⟩
  · intro hnc hf
    simp [stop_controller_streaming_steps, h, hnc, hf, htr]
  · intro hf
    subst hf
    refine ⟨?_, stop_raises_eq_true s id h, ?_⟩
    · simp [stop_controller_streaming_steps, h, TaskState.isCancelled]
    · rw [stop_lookup_states]
      simp [h]
  · rw [stop_lookup_active]
    simp [h]

/-- Witness for C2 (amended): a running task yields the four-step sequence
ending in the tracker removal; a failed task yields the three-step
sequence where the await re-raises; in both cases the record is popped. -/
theorem C2_stop_pops_record_before_wait_witness :
    stop_controller_streaming_steps
        ⟨[("B", TaskState.running)], [("B", "SAFETY_STATE_NORMAL")]⟩ "B"
      = [StopAction.popRecord "B", StopAction.cancelTask "B",
         StopAction.awaitFinish "B", StopAction.removeTracker "B"]
    ∧ stop_controller_streaming_steps
        ⟨[("C", TaskState.failed)], [("C", "SAFETY_STATE_NORMAL")]⟩ "C"
      = [StopAction.popRecord "C", StopAction.cancelTask "C", StopAction.awaitFinish "C"]
    ∧ lookupKey (stop_controller_streaming
        ⟨[("B", TaskState.running)], [("B", "SAFETY_STATE_NORMAL")]⟩ "B").1.active_controllers "B"
      = none := by
  have hB := C2_stop_pops_record_before_wait
    ⟨[("B", TaskState.running)], [("B", "SAFETY_STATE_NORMAL")]⟩ "B"
    TaskState.running (by decide) (by decide)
  have hC := C2_stop_pops_record_before_wait
    ⟨[("C", TaskState.failed)], [("C", "SAFETY_STATE_NORMAL")]⟩ "C"
    TaskState.failed (by decide) (by decide)
  exact ⟨hB.1 (by decide) (by decide), (hC.2.1 rfl).1, hB.2.2⟩

/-- Claim C5 counterexample: for a fresh identity the start endpoint
returns success immediately and records a task whose projected status is
running, even though the registration inside the task has not happened yet
and will fail (the modelled run fails at the factsheet publish); the start
operation does not fail on registration failure — only the task does,
later. -/
theorem C5_counterexample :
    (api_start_controller_streaming ⟨[], []⟩ "A").2.success = true
    ∧ lookupKey (api_start_controller_streaming ⟨[], []⟩ "A").1.active_controllers "A"
        = some TaskState.pending
    ∧ task_status (some TaskState.pending) = "running"
    ∧ (stream_controller_state_trace ⟨"A", ControllerConfiguration.AbbController "IRC5"⟩
        false true 0 none ["SAFETY_STATE_NORMAL"]).2
        = TaskResult.failed "publish of the device factsheet failed" := by
  decide

/-- Claim C5 (amended): start launches the task, records it at once (its
projected status is already running) and returns success; inside the task,
the descriptor publish and the device-connect both complete before any
state event is consumed (the two registration actions sit at trace indices
1 and 2 and every consume action at index 3 or later); if either
registration step fails, the task — not the start operation — fails,
consuming no events and publishing nothing. -/
theorem C5_registration_inside_task (c : RobotController) (fs : DeviceFactsheet)
    (hmap : map_robot_controller_to_waku_device c = Except.ok fs)
    (ts : Nat) (prev : Option String) (events : List String)
    (s : MState) (id : String)
    (hid : lookupKey s.active_controllers id = none) :
    ((api_start_controller_streaming s id).2.success = true
      ∧ lookupKey (api_start_controller_streaming s id).1.active_controllers id
          = some TaskState.pending
      ∧ task_status (some TaskState.pending) = "running")
    ∧ ((stream_controller_state_trace c true true ts prev events).1.get? 1
          = some (TaskAction.registerDevice fs.serial)
      ∧ (stream_controller_state_trace c true true ts prev events).1.get? 2
          = some (TaskAction.connectDevice fs.serial)
      ∧ ∀ j v, (stream_controller_state_trace c true true ts prev events).1.get? j
          = some (TaskAction.consumeEvent v) → 3 ≤ j)
    ∧ (∀ registerOk connectOk : Bool, (registerOk = false ∨ connectOk = false) →
        (∃ m, (stream_controller_state_trace c registerOk connectOk ts prev events).2
            = TaskResult.failed m)
        ∧ (∀ a ∈ (stream_controller_state_trace c registerOk connectOk ts prev events).1,
            (∀ v, a ≠ TaskAction.consumeEvent v) ∧ (∀ de, a ≠ TaskAction.publishErrors de))) := by
  refine ⟨⟨?_, ?_, rfl⟩, ⟨?_, ?_, ?_⟩, ?_⟩
  · simp [api_start_controller_streaming, hid]
  · simp only [api_start_controller_streaming, hid]
    have h := start_lookup s id id
    rw [hid] at h
    simpa [hid] using h
  · simp [stream_controller_state_trace, hmap, register_waku_device_trace]
  · simp [stream_controller_state_trace, hmap, register_waku_device_trace]
  · intro j v hj
    simp only [stream_controller_state_trace, hmap, register_waku_device_trace] at hj
    match j with
    | 0 => simp at hj
    | 1 => simp at hj
    | 2 => simp at hj
    | n + 3 => exact Nat.le_add_left 3 n
  · intro registerOk connectOk hor
    cases registerOk with
    | false =>
      refine ⟨⟨"publish of the device factsheet failed", by simp [stream_controller_state_trace, hmap]⟩, ?_⟩
      intro a ha
      simp [stream_controller_state_trace, hmap] at ha
      rcases ha with h | h <;> subst h <;> exact ⟨fun v => by simp, fun de => by simp⟩
    | true =>
      have hc : connectOk = false := by
        rcases hor with h | h
        · exact absurd h (by simp)
        · exact h
      subst hc
      refine ⟨⟨"publish of the device connection failed", by simp [stream_controller_state_trace, hmap]⟩, ?_⟩
      intro a ha
      simp [stream_controller_state_trace, hmap] at ha
      rcases ha with h | h | h <;> subst h <;> exact ⟨fun v => by simp, fun de => by simp⟩

/-- Witness for C5 (amended) at a concrete controller and fresh state. -/
theorem C5_registration_inside_task_witness :
    (api_start_controller_streaming ⟨[], []⟩ "B").2.success = true
    ∧ (stream_controller_state_trace ⟨"B", ControllerConfiguration.AbbController "IRC5"⟩
        true true 0 none ["SAFETY_STATE_NORMAL"]).1.get? 1
        = some (TaskAction.registerDevice "B")
    ∧ ∃ m, (stream_controller_state_trace ⟨"B", ControllerConfiguration.AbbController "IRC5"⟩
        false true 0 none ["SAFETY_STATE_NORMAL"]).2 = TaskResult.failed m := by
  have h := C5_registration_inside_task
    ⟨"B", ControllerConfiguration.AbbController "IRC5"⟩
    ⟨"B", "Wandelbots Nova Cloud - B - abb irc5", "abb", "irc5", some "1.0.0", some "Default"⟩
    (by decide) 0 none ["SAFETY_STATE_NORMAL"] ⟨[], []⟩ "B" (by decide)
  exact ⟨h.1.1, h.2.1.1, (h.2.2 false true (Or.inl rfl)).1⟩

/-- Claim C9: the status query is a pure projection of the current state:
for an uninitialized subsystem (no manager) it returns unhealthy with zero
counts and empty lists instead of throwing; otherwise, when the controller
fetch succeeds, it is unhealthy whenever the external source or the
publisher is not initialized, degraded when initialized but fewer streams
are active than controllers discovered, healthy otherwise, and the counts
and lists are projected directly from the fetch result and the active-task
map. -/
theorem C9_system_status (fetch : Except String (List String))
    (nova waku cell : Bool) (st : MState) (ids : List String)
    (hfetch : (if cell then fetch else Except.ok []) = Except.ok ids) :
    get_system_status none fetch = ⟨false, 0, 0, [], [], "unhealthy"⟩
    ∧ ((nova = false ∨ waku = false) →
        (get_system_status (some ⟨nova, waku, cell, st⟩) fetch).system_health = "unhealthy")
    ∧ (nova = true → waku = true →
        (keysOf st.active_controllers).length < ids.length →
        (get_system_status (some ⟨nova, waku, cell, st⟩) fetch).system_health = "degraded")
    ∧ (nova = true → waku = true →
        ¬ (keysOf st.active_controllers).length < ids.length →
        (get_system_status (some ⟨nova, waku, cell, st⟩) fetch).system_health = "healthy")
    ∧ (get_system_status (some ⟨nova, waku, cell, st⟩) fetch).discovered_controllers = ids
    ∧ (get_system_status (some ⟨nova, waku, cell, st⟩) fetch).active_controllers
        = keysOf st.active_controllers
    ∧ (get_system_status (some ⟨nova, waku, cell, st⟩) fetch).total_controllers = ids.length
    ∧ (get_system_status (some ⟨nova, waku, cell, st⟩) fetch).active_streams
        = (keysOf st.active_controllers).length := by
  refine ⟨rfl, ?_, ?_, ?_, ?_, ?_, ?_, ?_⟩
  · intro hor
    rcases hor with h | h <;>
      simp [get_system_status, hfetch, h]
  · intro hn hw hlt
    subst hn; subst hw
    simp [get_system_status, hfetch, hlt]
  · intro hn hw hlt
    subst hn; subst hw
    simp [get_system_status, hfetch, hlt]
  · simp [get_system_status, hfetch]
  · simp [get_system_status, hfetch]
  · simp [get_system_status, hfetch]
  · simp [get_system_status, hfetch]

/-- Witness for C9: initialized manager with two discovered controllers
and one active stream is degraded; absent manager is the unhealthy zero
snapshot. -/
theorem C9_system_status_witness :
    get_system_status none (Except.ok ["A", "B"]) = ⟨false, 0, 0, [], [], "unhealthy"⟩
    ∧ (get_system_status
        (some ⟨true, true, true, ⟨[("A", TaskState.running)], []⟩⟩)
        (Except.ok ["A", "B"])).system_health = "degraded" := by
  have h := C9_system_status (Except.ok ["A", "B"]) true true true
    ⟨[("A", TaskState.running)], []⟩ ["A", "B"] (by decide)
  exact ⟨h.1, h.2.2.1 rfl rfl (by decide)⟩

theorem mem_iff_mem_filter_cid (ev : List ManageEvent) (x : String)
    (e : ManageEvent) (he : e.cid = x) :
    e ∈ ev ↔ e ∈ ev.filter (fun a => a.cid == x) := by
  rw [List.mem_filter]
  simp [he]

/-- Claim C1 counterexample: a cycle entered with controller A active but
its task already cleanly completed, and A still discovered, runs to
completion (no exception) and stops A and then starts A again, although A
is in neither discovered minus active nor active minus discovered; the
cycle therefore does not start exactly discovered minus active nor stop
exactly active minus discovered. -/
theorem C1_counterexample :
    (discover_and_manage_controllers ⟨[("A", TaskState.completed)], []⟩ ["A"]).events
      = [ManageEvent.stopped "A", ManageEvent.started "A"]
    ∧ (discover_and_manage_controllers ⟨[("A", TaskState.completed)], []⟩ ["A"]).raised
      = false
    ∧ lookupKey (MState.mk [("A", TaskState.completed)] []).active_controllers "A"
      = some TaskState.completed
    ∧ "A" ∈ ["A"] := by
  decide

/-- Claim C1 (amended): for a discovery cycle entered with unique task-map
keys and no task in the failed state — a failed task makes the stop at
app.py 206 re-raise its exception and abort the cycle, so only such cycles
run to completion — the cycle raises no exception, and afterwards: every
remaining active identity is among the fetched ids; every fetched identity
that had no task before has a task afterwards; the cycle starts exactly
the identities that are fetched and either had no task or whose task had
reached a terminal state (completed or cancelled), and stops exactly the
identities that had a task and are either no longer fetched or whose task
had reached a terminal state — the stop-and-restart of terminal tasks is
the only departure from the plain set differences. -/
theorem C1_discovery_cycle_reconciliation (s : MState) (d : List String)
    (hnd : (keysOf s.active_controllers).Nodup)
    (hnf : ∀ p ∈ s.active_controllers, p.2 ≠ TaskState.failed) :
    (discover_and_manage_controllers s d).raised = false
    ∧ (∀ x, lookupKey (discover_and_manage_controllers s d).st.active_controllers x ≠ none →
      x ∈ d)
    ∧ (∀ x, x ∈ d → lookupKey s.active_controllers x = none →
      lookupKey (discover_and_manage_controllers s d).st.active_controllers x ≠ none)
    ∧ (∀ x, ManageEvent.started x ∈ (discover_and_manage_controllers s d).events ↔
      x ∈ d ∧ (lookupKey s.active_controllers x = none
        ∨ ∃ t, lookupKey s.active_controllers x = some t ∧ t.done = true))
    ∧ (∀ x, ManageEvent.stopped x ∈ (discover_and_manage_controllers s d).events ↔
      ∃ t, lookupKey s.active_controllers x = some t ∧ (x ∉ d ∨ t.done = true)) := by
  have hnfl : ∀ y, lookupKey s.active_controllers y ≠ some TaskState.failed :=
    lookupKey_not_failed_of_forall hnf
  refine ⟨discover_raised_false s d hnfl, ?_, ?_, ?_, ?_⟩
  · intro x h
    rw [discover_lookup_active s d x hnd hnfl] at h
    by_cases hxd : x ∈ d
    · exact hxd
    · rw [if_neg hxd] at h
      exact absurd rfl h
  · intro x hxd hnone
    rw [discover_lookup_active s d x hnd hnfl, if_pos hxd, hnone]
    simp
  · intro x
    rw [mem_iff_mem_filter_cid _ x (ManageEvent.started x) rfl,
        discover_events_filter s d x hnd hnfl]
    by_cases h1 : lookupKey s.active_controllers x = none ∧ x ∈ d
    · rw [if_pos h1]
      simp [h1.2, h1.1]
    · rw [if_neg h1]
      by_cases h2 : lookupKey s.active_controllers x ≠ none ∧ x ∉ d
      · rw [if_pos h2]
        constructor
        · intro hmem
          simp at hmem
        · rintro ⟨hxd, _⟩
          exact absurd hxd h2.2
      · rw [if_neg h2]
        by_cases h3 : x ∈ d ∧ ∃ t, lookupKey s.active_controllers x = some t ∧ t.done = true
        · rw [if_pos h3]
          obtain ⟨hxd, t, ht, htd⟩ := h3
          simp only [List.mem_cons, List.mem_singleton]
          constructor
          · intro _
            exact ⟨hxd, Or.inr ⟨t, ht, htd⟩⟩
          · intro _
            simp
        · rw [if_neg h3]
          constructor
          · intro hmem
            simp at hmem
          · rintro ⟨hxd, hnone | ⟨t, ht, htd⟩⟩
            · exact absurd ⟨hnone, hxd⟩ h1
            · exact absurd ⟨hxd, t, ht, htd⟩ h3
  · intro x
    rw [mem_iff_mem_filter_cid _ x (ManageEvent.stopped x) rfl,
        discover_events_filter s d x hnd hnfl]
    by_cases h1 : lookupKey s.active_controllers x = none ∧ x ∈ d
    · rw [if_pos h1]
      constructor
      · intro hmem
        simp at hmem
      · rintro ⟨t, ht, _⟩
        rw [h1.1] at ht
        exact Option.noConfusion ht
    · rw [if_neg h1]
      by_cases h2 : lookupKey s.active_controllers x ≠ none ∧ x ∉ d
      · rw [if_pos h2]
        constructor
        · intro _
          cases hx : lookupKey s.active_controllers x with
          | none => exact absurd hx h2.1
          | some t => exact ⟨t, rfl, Or.inl h2.2⟩
        · intro _
          simp
      · rw [if_neg h2]
        by_cases h3 : x ∈ d ∧ ∃ t, lookupKey s.active_controllers x = some t ∧ t.done = true
        · rw [if_pos h3]
          obtain ⟨hxd, t, ht, htd⟩ := h3
          simp only [List.mem_cons, List.mem_singleton]
          constructor
          · intro _
            exact ⟨t, ht, Or.inr htd⟩
          · intro _
            simp
        · rw [if_neg h3]
          constructor
          · intro hmem
            simp at hmem
          · rintro ⟨t, ht, hnd2 | htd⟩
            · exact absurd ⟨by rw [ht]; simp, hnd2⟩ h2
            · have hxd : x ∈ d := by
                by_contra hc
                exact h2 ⟨by rw [ht]; simp, hc⟩
              exact absurd ⟨hxd, t, ht, htd⟩ h3

/-- Witness for C1 (amended): B active and still discovered, A newly
discovered; the cycle raises nothing, A was started and has a task. -/
theorem C1_discovery_cycle_reconciliation_witness :
    (discover_and_manage_controllers ⟨[("B", TaskState.running)], []⟩ ["A", "B"]).raised = false
    ∧ ManageEvent.started "A" ∈
      (discover_and_manage_controllers ⟨[("B", TaskState.running)], []⟩ ["A", "B"]).events
    ∧ lookupKey (discover_and_manage_controllers
        ⟨[("B", TaskState.running)], []⟩ ["A", "B"]).st.active_controllers "A" ≠ none := by
  have h := C1_discovery_cycle_reconciliation ⟨[("B", TaskState.running)], []⟩ ["A", "B"]
    (by decide) (by decide)
  exact ⟨h.1, (h.2.2.2.1 "A").mpr ⟨by decide, Or.inl (by decide)⟩,
         h.2.2.1 "A" (by decide) (by decide)⟩

/-- Claim C7 (code bug): the completed-tasks loop at app.py 243-247 is
meant to stop and immediately restart a still-discovered controller whose
task reached a terminal state, with a fresh baseline; but for a task that
ended in the Failed state, the stop it calls awaits the task at app.py
206, which re-raises the task stored exception past the
CancelledError-only handler, so the cycle aborts at the outer except
(app.py 249): the record has been popped but the controller is not
restarted and its tracker entry survives. The restart only happens on the
following cycle, through the new-controllers diff, and that restarted task
then starts from the stale safety-state baseline instead of a cleared
one — contradicting both the claim and the restart loop own intent. This
theorem evaluates the faithful embedding at the failing input (controller
A, failed task, retained baseline NORMAL, still discovered) over two
consecutive cycles. -/
theorem C7_failed_task_stop_aborts_cycle :
    stop_raises ⟨[("A", TaskState.failed)], [("A", "SAFETY_STATE_NORMAL")]⟩ "A" = true
    ∧ (discover_and_manage_controllers
        ⟨[("A", TaskState.failed)], [("A", "SAFETY_STATE_NORMAL")]⟩ ["A"]).raised = true
    ∧ (discover_and_manage_controllers
        ⟨[("A", TaskState.failed)], [("A", "SAFETY_STATE_NORMAL")]⟩ ["A"]).events
      = [ManageEvent.stopped "A"]
    ∧ lookupKey (discover_and_manage_controllers
        ⟨[("A", TaskState.failed)], [("A", "SAFETY_STATE_NORMAL")]⟩ ["A"]).st.active_controllers "A"
      = none
    ∧ lookupKey (discover_and_manage_controllers
        ⟨[("A", TaskState.failed)], [("A", "SAFETY_STATE_NORMAL")]⟩ ["A"]).st.controller_states "A"
      = some "SAFETY_STATE_NORMAL"
    ∧ (discover_and_manage_controllers
        (discover_and_manage_controllers
          ⟨[("A", TaskState.failed)], [("A", "SAFETY_STATE_NORMAL")]⟩ ["A"]).st ["A"]).events
      = [ManageEvent.started "A"]
    ∧ lookupKey (discover_and_manage_controllers
        (discover_and_manage_controllers
          ⟨[("A", TaskState.failed)], [("A", "SAFETY_STATE_NORMAL")]⟩ ["A"]).st ["A"]).st.controller_states "A"
      = some "SAFETY_STATE_NORMAL" := by
  decide

end Thingkaton
